import Mathlib

/-!
# Verification of the enemeter-data-processing streaming aggregation engine

Shallow embedding of the record filter/decoder (`internal/parser/csv_parser.go`,
functions `Parse` and `StreamRecords`) and of the streaming aggregator
(`metrics` package: `CalculateMetrics`, `StreamCalculateMetrics`,
`processRecord`, `finalizeMetrics`).

Modelling conventions:
* Go `int64` / `int` values are modelled as `Int`.  The decoder's
  `strconv.ParseInt(_, 10, 64)` is modelled exactly, including the int64
  range check, so decoded fields always fit in 64 bits; int64 overflow of the
  running millisecond accumulator (reachable only after astronomically many
  maximal deltas) is not modelled.
* `time.Time` values are modelled as an absolute count of milliseconds
  (`Int`); `Add(Duration(ms) * Millisecond)` is addition, `Before`/`After`
  are `<`/`>`.  `Hour()` is hour-of-day extraction from the millisecond
  count (the timezone does not matter for any statement proved here, since
  both execution paths use the same extraction).
* `float64` arithmetic of the aggregator is modelled exactly over `ℚ`
  (the claims under study are about the exact data flow, not rounding);
  `math.MaxFloat64` is the exact rational value of that constant.
* The row source is a list of already-split rows (lists of field strings),
  matching the spec's "caller supplies a source of raw rows"; byte-level
  `encoding/csv` read errors are outside the model.  Error strings keep the
  constant prefix of the corresponding `fmt.Errorf` format.
* Each Go loop becomes a recursive function whose extra result components
  (final accumulated time, final sample counter, and whether the scan ended
  via the end-bound `break`) are instrumentation used only by theorems; the
  record output is the faithful translation.
-/

namespace Enemeter

/-! ## strconv.ParseInt (base 10, bit size 64) -/

/-- Value of a base-10 digit character, `none` for any other character. -/
def digitVal (c : Char) : Option Nat :=
  if '0' ≤ c ∧ c ≤ '9' then some (c.toNat - '0'.toNat) else none

/-- Accumulate base-10 digits; fails on the first non-digit character. -/
def parseDigitsAux : List Char → Nat → Option Nat
  | [], acc => some acc
  | c :: rest, acc =>
    match digitVal c with
    | none => none
    | some d => parseDigitsAux rest (acc * 10 + d)

/-- Parse a non-empty all-digit string to a natural number. -/
def parseDigits (cs : List Char) : Option Nat :=
  match cs with
  | [] => none
  | _ => parseDigitsAux cs 0

/-- Go `strconv.ParseInt(s, 10, 64)`: optional sign, at least one digit,
result must fit in a signed 64-bit integer.  `none` models a non-nil error. -/
def parseInt64 (s : String) : Option Int :=
  match s.data with
  | [] => none
  | c :: rest =>
    let signed : Bool × List Char :=
      if c = '-' then (true, rest)
      else if c = '+' then (false, rest)
      else (false, c :: rest)
    match parseDigits signed.2 with
    | none => none
    | some n =>
      let v : Int := if signed.1 then -(n : Int) else (n : Int)
      if -(2 ^ 63) ≤ v ∧ v ≤ 2 ^ 63 - 1 then some v else none

/-! ## Data model of the decoder (`csv_parser.go`) -/

/-- One raw CSV row, already split into fields. -/
abbrev Row := List String

/-- `parser.EnemeterRecord`; `Timestamp` is absolute milliseconds. -/
structure EnemeterRecord where
  TimeDeltaMs : Int
  TempMiliCelsius : Int
  VoltageMicroV : Int
  CurrentNanoA : Int
  Timestamp : Int
  deriving DecidableEq, Repr

/-- `parser.FilterOptions`; times are absolute milliseconds.
`SelectedFields` is never read by the decoder and is omitted. -/
structure FilterOptions where
  StartTime : Option Int
  EndTime : Option Int
  SampleRate : Int
  MaxRecords : Int
  TempThreshold : Option Int
  VoltageRange : Option (Int × Int)
  CurrentRange : Option (Int × Int)
  deriving DecidableEq, Repr

/-- Decode the four fields of a row, in the source's column order and with
the source's error precedence (shape, time delta, voltage, current,
temperature). -/
def decodeRow (row : Row) : Except String (Int × Int × Int × Int) :=
  match row with
  | [tS, vS, cS, tmS] =>
    match parseInt64 tS with
    | none => .error "failed to parse time delta"
    | some timeDelta =>
      match parseInt64 vS with
      | none => .error "failed to parse voltage"
      | some voltageMicroV =>
        match parseInt64 cS with
        | none => .error "failed to parse current"
        | some currentNanoA =>
          match parseInt64 tmS with
          | none => .error "failed to parse temperature"
          | some tempMiliCelsius =>
            .ok (timeDelta, voltageMicroV, currentNanoA, tempMiliCelsius)
  | _ => .error ("invalid row format, expected 4 fields but got " ++ toString row.length)

/-- Outcome of the shared (post-sampling-gate) loop body on one row. -/
inductive StepResult where
  | fail (msg : String)
  | skip (acc : Int)
  | stop (acc : Int)
  | emit (acc : Int) (r : EnemeterRecord)
  deriving DecidableEq, Repr

/-- Go `p.options.EndTime != nil && timestamp.After(*p.options.EndTime)`. -/
def afterEnd (endTime : Option Int) (t : Int) : Bool :=
  match endTime with
  | some e => decide (t > e)
  | none => false

/-- Go `p.options.TempThreshold != nil && tempMiliCelsius < *p.options.TempThreshold`. -/
def belowThreshold (threshold : Option Int) (x : Int) : Bool :=
  match threshold with
  | some th => decide (x < th)
  | none => false

/-- Go `p.options.XRange != nil && (x < p.options.XRange[0] || x > p.options.XRange[1])`. -/
def outsideRange (range : Option (Int × Int)) (x : Int) : Bool :=
  match range with
  | some r => decide (x < r.1) || decide (x > r.2)
  | none => false

/-- The loop body both `Parse` and `StreamRecords` run on a row that passed
the sampling gate: decode, advance accumulated time, derive the timestamp,
then apply the start/end window checks and the three value filters in the
source's order.  `s` is the (required) start time. -/
def stepRow (o : FilterOptions) (s : Int) (acc : Int) (row : Row) : StepResult :=
  match decodeRow row with
  | .error e => .fail e
  | .ok (timeDelta, voltageMicroV, currentNanoA, tempMiliCelsius) =>
    let acc' := acc + timeDelta
    let timestamp := s + acc'
    if timestamp < s then .skip acc'
    else if afterEnd o.EndTime timestamp then .stop acc'
    else if belowThreshold o.TempThreshold tempMiliCelsius then .skip acc'
    else if outsideRange o.VoltageRange voltageMicroV then .skip acc'
    else if outsideRange o.CurrentRange currentNanoA then .skip acc'
    else .emit acc' ⟨timeDelta, tempMiliCelsius, voltageMicroV, currentNanoA, timestamp⟩

/-- The loop of `CSVParser.Parse`: the `MaxRecords` cap is the loop
condition, checked before each read; the sampling counter is incremented
and tested before the row is decoded.  Result components: records,
accumulated milliseconds, sample counter, and whether the scan ended via
the end-bound `break`. -/
def parseLoop (o : FilterOptions) (s : Int) :
    List Row → Int → Int → List EnemeterRecord →
    Except String (List EnemeterRecord × Int × Int × Bool)
  | [], acc, counter, records => .ok (records, acc, counter, false)
  | row :: rest, acc, counter, records =>
    if 0 < o.MaxRecords ∧ o.MaxRecords ≤ (records.length : Int) then
      .ok (records, acc, counter, false)
    else if counter + 1 < o.SampleRate then
      parseLoop o s rest acc (counter + 1) records
    else
      match stepRow o s acc row with
      | .fail e => .error e
      | .skip acc' => parseLoop o s rest acc' 0 records
      | .stop acc' => .ok (records, acc', 0, true)
      | .emit acc' r => parseLoop o s rest acc' 0 (records ++ [r])

/-- `CSVParser.Parse`: requires a start time, then runs the loop. -/
def Parse (o : FilterOptions) (rows : List Row) : Except String (List EnemeterRecord) :=
  match o.StartTime with
  | none => .error "start time must be provided"
  | some s => (parseLoop o s rows 0 0 []).map (fun x => x.1)

/-- The loop of `CSVParser.StreamRecords`: the sampling gate runs first,
then the `MaxRecords` cap (checked against the count of records already
delivered), then the shared body; an accepted record is handed to the
callback, whose error is wrapped and aborts the scan.  Result components:
callback state, accumulated milliseconds, sample counter, record count, and
whether the scan ended via the end-bound `break`. -/
def streamLoop (o : FilterOptions) (s : Int) {σ : Type}
    (cb : σ → EnemeterRecord → Except String σ) :
    List Row → Int → Int → Int → σ →
    Except String (σ × Int × Int × Int × Bool)
  | [], acc, counter, recordCount, st => .ok (st, acc, counter, recordCount, false)
  | row :: rest, acc, counter, recordCount, st =>
    if counter + 1 < o.SampleRate then
      streamLoop o s cb rest acc (counter + 1) recordCount st
    else if 0 < o.MaxRecords ∧ o.MaxRecords ≤ recordCount then
      .ok (st, acc, 0, recordCount, false)
    else
      match stepRow o s acc row with
      | .fail e => .error e
      | .skip acc' => streamLoop o s cb rest acc' 0 recordCount st
      | .stop acc' => .ok (st, acc', 0, recordCount, true)
      | .emit acc' r =>
        match cb st r with
        | .error e => .error ("callback error: " ++ e)
        | .ok st' => streamLoop o s cb rest acc' 0 (recordCount + 1) st'

/-- `CSVParser.StreamRecords`, generic in the callback state. -/
def StreamRecords (o : FilterOptions) (rows : List Row) {σ : Type}
    (cb : σ → EnemeterRecord → Except String σ) (init : σ) : Except String σ :=
  match o.StartTime with
  | none => .error "start time must be provided"
  | some s => (streamLoop o s cb rows 0 0 0 init).map (fun x => x.1)

/-- Rows that pass the sampling gate, starting from a given counter value:
the counter is incremented per raw row read and a row is kept exactly when
the incremented counter is not below the stride, after which it resets. -/
def keptRows (rate : Int) : Int → List Row → List Row
  | _, [] => []
  | counter, row :: rest =>
    if counter + 1 < rate then keptRows rate (counter + 1) rest
    else row :: keptRows rate 0 rest

/-- Time delta a row decodes to (0 for undecodable rows; only used under a
hypothesis that the scan succeeded, which forces the decode to succeed). -/
def rowTimeDelta (row : Row) : Int :=
  match decodeRow row with
  | .ok x => x.1
  | .error _ => 0

example : parseInt64 "52051" = some 52051 := by decide
example : parseInt64 "-1275169536" = some (-1275169536) := by decide
example : parseInt64 "x" = none := by decide
example : parseInt64 "" = none := by decide
example : parseInt64 "+47" = some 47 := by decide
example :
    Parse ⟨some 0, none, 1, 0, none, none, none⟩ [["52051", "-1275169536", "23192", "4815430"]]
      = .ok [⟨52051, 4815430, -1275169536, 23192, 52051⟩] := rfl
example :
    Parse ⟨some 0, none, 2, 0, none, none, none⟩
      [["10", "0", "0", "0"], ["10", "0", "0", "0"]]
      = .ok [⟨10, 0, 0, 0, 10⟩] := rfl


/-! ## Data model of the aggregator (`metrics` package) -/

/-- Exact value of Go `math.MaxFloat64`. -/
def maxFloat64 : ℚ := 2 ^ 1024 - 2 ^ 971

/-- `metrics.TemperatureStats`. -/
structure TemperatureStats where
  MinTempCelsius : ℚ
  MaxTempCelsius : ℚ
  AvgTempCelsius : ℚ
  deriving DecidableEq, Repr

/-- `metrics.VoltageStats`. -/
structure VoltageStats where
  MinVoltage : ℚ
  MaxVoltage : ℚ
  AvgVoltage : ℚ
  deriving DecidableEq, Repr

/-- `metrics.CurrentStats`. -/
structure CurrentStats where
  MinCurrent : ℚ
  MaxCurrent : ℚ
  AvgCurrent : ℚ
  MaxDischarge : ℚ
  MaxCharging : ℚ
  deriving DecidableEq, Repr

/-- `metrics.BatteryStats`. -/
structure BatteryStats where
  EstimatedCapacity : ℚ
  AverageDischargeRate : ℚ
  TotalDischargeTime : ℚ
  TotalChargeTime : ℚ
  DischargeToChargeRatio : ℚ
  deriving DecidableEq, Repr

/-- `metrics.SolarStats`. -/
structure SolarStats where
  TotalEnergyProduced : ℚ
  AverageOutput : ℚ
  PeakOutput : ℚ
  ContributionPercentage : ℚ
  deriving DecidableEq, Repr

/-- `metrics.TimeRange` (absolute milliseconds). -/
structure TimeRange where
  StartTime : Int
  EndTime : Int
  deriving DecidableEq, Repr

/-- `metrics.EnergyMetrics`.  The per-hour map is modelled extensionally as
a total function with default 0 (a Go map read of a missing key yields 0,
and `+=` inserts; a nil map and an empty map denote the same mapping). -/
structure EnergyMetrics where
  TotalJoules : ℚ
  AveragePowerWatts : ℚ
  PeakPowerWatts : ℚ
  JoulesPerDay : ℚ
  DurationSeconds : ℚ
  TemperatureStats : TemperatureStats
  EnergyConsumptionByHour : Int → ℚ
  VoltageStats : VoltageStats
  CurrentStats : CurrentStats
  BatteryStats : BatteryStats
  SolarStats : SolarStats
  TimeRange : TimeRange
  DataPoints : Int

/-- Go's zero value `EnergyMetrics{}` (returned by `CalculateMetrics` on an
empty record list). -/
def zeroEnergyMetrics : EnergyMetrics where
  TotalJoules := 0
  AveragePowerWatts := 0
  PeakPowerWatts := 0
  JoulesPerDay := 0
  DurationSeconds := 0
  TemperatureStats := ⟨0, 0, 0⟩
  EnergyConsumptionByHour := fun _ => 0
  VoltageStats := ⟨0, 0, 0⟩
  CurrentStats := ⟨0, 0, 0, 0, 0⟩
  BatteryStats := ⟨0, 0, 0, 0, 0⟩
  SolarStats := ⟨0, 0, 0, 0⟩
  TimeRange := ⟨0, 0⟩
  DataPoints := 0

/-- `metrics.metricsTracker`.  The stored `options` field is omitted: it is
never read by `processRecord` or `finalizeMetrics`. -/
structure metricsTracker where
  totalJoules : ℚ
  totalPower : ℚ
  peakPower : ℚ
  totalDurationMs : Int
  dataPoints : Int
  startTime : Int
  endTime : Int
  firstTimestamp : Bool
  tempSum : ℚ
  minTemp : ℚ
  maxTemp : ℚ
  tempCount : Int
  voltSum : ℚ
  minVolt : ℚ
  maxVolt : ℚ
  voltCount : Int
  currentSum : ℚ
  minCurrent : ℚ
  maxCurrent : ℚ
  maxDischarge : ℚ
  maxCharging : ℚ
  currentCount : Int
  totalDischargeTime : ℚ
  totalChargeTime : ℚ
  totalDischargeEnergy : ℚ
  totalChargeEnergy : ℚ
  energyByHour : Int → ℚ
  prevRecord : Option EnemeterRecord

/-- `metrics.newMetricsTracker` (unlisted Go fields take their zero value). -/
def newMetricsTracker : metricsTracker where
  totalJoules := 0
  totalPower := 0
  peakPower := 0
  totalDurationMs := 0
  dataPoints := 0
  startTime := 0
  endTime := 0
  firstTimestamp := true
  tempSum := 0
  minTemp := maxFloat64
  maxTemp := -maxFloat64
  tempCount := 0
  voltSum := 0
  minVolt := maxFloat64
  maxVolt := -maxFloat64
  voltCount := 0
  currentSum := 0
  minCurrent := maxFloat64
  maxCurrent := -maxFloat64
  maxDischarge := 0
  maxCharging := 0
  currentCount := 0
  totalDischargeTime := 0
  totalChargeTime := 0
  totalDischargeEnergy := 0
  totalChargeEnergy := 0
  energyByHour := fun _ => 0
  prevRecord := none

/-- Hour-of-day of a timestamp in milliseconds (`record.Timestamp.Hour()`;
the timezone offset is irrelevant to every statement proved here, as both
execution paths apply the same extraction). -/
def hourOf (tsMs : Int) : Int := tsMs / 3600000 % 24

/-- Instantaneous power of a record: `math.Abs(volts) * amps`. -/
def instantPowerOf (r : EnemeterRecord) : ℚ :=
  |(r.VoltageMicroV : ℚ) / 1000000| * ((r.CurrentNanoA : ℚ) / 1000000000)

/-- Statement block of `processRecord` updating the temperature sum, count
and extrema. -/
def processTemp (mt : metricsTracker) (tempCelsius : ℚ) : metricsTracker :=
  let mt := { mt with tempSum := mt.tempSum + tempCelsius, tempCount := mt.tempCount + 1 }
  let mt := if tempCelsius < mt.minTemp then { mt with minTemp := tempCelsius } else mt
  if tempCelsius > mt.maxTemp then { mt with maxTemp := tempCelsius } else mt

/-- Statement block of `processRecord` updating the voltage sum, count and
extrema. -/
def processVolt (mt : metricsTracker) (volts : ℚ) : metricsTracker :=
  let mt := { mt with voltSum := mt.voltSum + volts, voltCount := mt.voltCount + 1 }
  let mt := if volts < mt.minVolt then { mt with minVolt := volts } else mt
  if volts > mt.maxVolt then { mt with maxVolt := volts } else mt

/-- Statement block of `processRecord` updating the current sum, count,
extrema, and the two independent discharge/charging maxima. -/
def processCurrent (mt : metricsTracker) (amps : ℚ) : metricsTracker :=
  let mt := { mt with currentSum := mt.currentSum + amps, currentCount := mt.currentCount + 1 }
  let mt := if amps < mt.minCurrent then { mt with minCurrent := amps } else mt
  let mt := if amps > mt.maxCurrent then { mt with maxCurrent := amps } else mt
  if amps < 0 ∧ |amps| > mt.maxDischarge then { mt with maxDischarge := |amps| }
  else if amps > 0 ∧ amps > mt.maxCharging then { mt with maxCharging := amps }
  else mt

/-- The `mt.prevRecord != nil` block of `processRecord`: integrate energy
over the arriving record's own time delta. -/
def integrateRecord (mt : metricsTracker) (record : EnemeterRecord)
    (instantPower amps : ℚ) : metricsTracker :=
  match mt.prevRecord with
  | some _ =>
    let durationSecs : ℚ := (record.TimeDeltaMs : ℚ) / 1000
    let mt := { mt with totalDurationMs := mt.totalDurationMs + record.TimeDeltaMs }
    let joules := instantPower * durationSecs
    let mt := { mt with totalJoules := mt.totalJoules + joules,
                        totalPower := mt.totalPower + instantPower }
    let hourOfDay := hourOf record.Timestamp
    let mt := { mt with energyByHour :=
      fun h => if h = hourOfDay then mt.energyByHour h + joules else mt.energyByHour h }
    if amps < 0 then
      { mt with totalDischargeTime := mt.totalDischargeTime + durationSecs,
                totalDischargeEnergy := mt.totalDischargeEnergy + |joules| }
    else
      { mt with totalChargeTime := mt.totalChargeTime + durationSecs,
                totalChargeEnergy := mt.totalChargeEnergy + joules }
  | none => mt

/-- `metricsTracker.processRecord` (the ignored index argument is dropped),
assembled from its statement blocks in source order. -/
def processRecord (mt : metricsTracker) (record : EnemeterRecord) : metricsTracker :=
  let tempCelsius : ℚ := (record.TempMiliCelsius : ℚ) / 1000
  let volts : ℚ := (record.VoltageMicroV : ℚ) / 1000000
  let amps : ℚ := (record.CurrentNanoA : ℚ) / 1000000000
  let powerVolts : ℚ := |volts|
  let mt := if mt.firstTimestamp then
      { mt with startTime := record.Timestamp, firstTimestamp := false }
    else mt
  let mt := { mt with endTime := record.Timestamp }
  let mt := processTemp mt tempCelsius
  let mt := processVolt mt volts
  let mt := processCurrent mt amps
  let instantPower := powerVolts * amps
  let mt := if |instantPower| > mt.peakPower then { mt with peakPower := |instantPower| } else mt
  let mt := integrateRecord mt record instantPower amps
  { mt with prevRecord := some record, dataPoints := mt.dataPoints + 1 }

/-- First block of `finalizeMetrics`: map, data points, time range, totals,
duration, and the duration-guarded average power and joules/day. -/
def finalizeCore (mt : metricsTracker) : EnergyMetrics :=
  let metrics : EnergyMetrics :=
    { zeroEnergyMetrics with
        EnergyConsumptionByHour := mt.energyByHour
        DataPoints := mt.dataPoints
        TimeRange := ⟨mt.startTime, mt.endTime⟩ }
  let durationSeconds : ℚ := (mt.totalDurationMs : ℚ) / 1000
  let metrics := { metrics with TotalJoules := mt.totalJoules,
                                PeakPowerWatts := mt.peakPower,
                                DurationSeconds := durationSeconds }
  let metrics := if durationSeconds > 0 then
      { metrics with AveragePowerWatts := mt.totalJoules / durationSeconds }
    else metrics
  if durationSeconds > 0 then
    { metrics with JoulesPerDay := mt.totalJoules * ((24 * 60 * 60 : ℚ) / durationSeconds) }
  else metrics

/-- Count-guarded per-category stats blocks of `finalizeMetrics`. -/
def finalizeStats (mt : metricsTracker) (metrics : EnergyMetrics) : EnergyMetrics :=
  let metrics := if mt.tempCount > 0 then
      { metrics with TemperatureStats :=
          ⟨mt.minTemp, mt.maxTemp, mt.tempSum / (mt.tempCount : ℚ)⟩ }
    else metrics
  let metrics := if mt.voltCount > 0 then
      { metrics with VoltageStats :=
          ⟨mt.minVolt, mt.maxVolt, mt.voltSum / (mt.voltCount : ℚ)⟩ }
    else metrics
  if mt.currentCount > 0 then
    { metrics with CurrentStats :=
        ⟨mt.minCurrent, mt.maxCurrent, mt.currentSum / (mt.currentCount : ℚ),
         mt.maxDischarge, mt.maxCharging⟩ }
  else metrics

/-- Battery stats block of `finalizeMetrics`. -/
def finalizeBattery (mt : metricsTracker) (metrics : EnergyMetrics) : EnergyMetrics :=
  let metrics := { metrics with BatteryStats :=
      ⟨0, 0, mt.totalDischargeTime, mt.totalChargeTime, 0⟩ }
  let totalTime := mt.totalDischargeTime + mt.totalChargeTime
  let metrics := if totalTime > 0 then
      { metrics with BatteryStats :=
          { metrics.BatteryStats with DischargeToChargeRatio := mt.totalDischargeTime / totalTime } }
    else metrics
  if mt.totalDischargeTime > 0 then
    { metrics with BatteryStats :=
        { metrics.BatteryStats with AverageDischargeRate := mt.totalDischargeEnergy / mt.totalDischargeTime } }
  else metrics

/-- Solar stats block of `finalizeMetrics`. -/
def finalizeSolar (mt : metricsTracker) (metrics : EnergyMetrics) : EnergyMetrics :=
  let metrics := { metrics with SolarStats := ⟨mt.totalChargeEnergy, 0, 0, 0⟩ }
  let metrics := if mt.totalChargeTime > 0 then
      { metrics with SolarStats :=
          { metrics.SolarStats with AverageOutput := mt.totalChargeEnergy / mt.totalChargeTime } }
    else metrics
  let metrics := { metrics with SolarStats :=
      { metrics.SolarStats with PeakOutput := mt.maxCharging } }
  let totalEnergy := mt.totalDischargeEnergy + mt.totalChargeEnergy
  if totalEnergy > 0 then
    { metrics with SolarStats :=
        { metrics.SolarStats with ContributionPercentage := mt.totalChargeEnergy / totalEnergy * 100 } }
  else metrics

/-- `metricsTracker.finalizeMetrics`, with the tracker state threaded
explicitly: the Go method body assigns no tracker field, so the state out
is the state in.  The first component is the snapshot the Go method
returns, assembled from the method's statement blocks in source order. -/
def finalizeMetricsSt (mt : metricsTracker) : EnergyMetrics × metricsTracker :=
  (finalizeSolar mt (finalizeBattery mt (finalizeStats mt (finalizeCore mt))), mt)

/-- The snapshot `finalizeMetrics` returns. -/
def finalizeMetrics (mt : metricsTracker) : EnergyMetrics := (finalizeMetricsSt mt).1

/-- `EnergyCalculator.CalculateMetrics` on its record list (batch path). -/
def CalculateMetrics (records : List EnemeterRecord) : EnergyMetrics :=
  if records.length = 0 then zeroEnergyMetrics
  else finalizeMetrics (records.foldl processRecord newMetricsTracker)

/-- `metrics.StreamCalculateMetrics`: stream the rows through the parser,
folding each delivered record into the tracker (the callback also counts
records, mirroring `recordIndex`, and never fails). -/
def StreamCalculateMetrics (o : FilterOptions) (rows : List Row) :
    Except String EnergyMetrics :=
  match StreamRecords o rows
      (fun st r => Except.ok (processRecord st.1 r, st.2 + 1))
      (newMetricsTracker, (0 : Int)) with
  | .error e => .error ("streaming calculation error: " ++ e)
  | .ok st => .ok (finalizeMetrics st.1)

example : CalculateMetrics [] = zeroEnergyMetrics := rfl
example : finalizeMetrics newMetricsTracker = zeroEnergyMetrics := by
  unfold finalizeMetrics finalizeMetricsSt finalizeSolar finalizeBattery finalizeStats
    finalizeCore newMetricsTracker zeroEnergyMetrics
  norm_num


/-! ## Loop lemmas for the decoder -/

/-- Once the record cap is reached, `Parse`'s loop exits before reading
anything further, leaving its state untouched. -/
theorem parseLoop_capped (o : FilterOptions) (s : Int) (rows : List Row) :
    ∀ acc counter recs, 0 < o.MaxRecords → o.MaxRecords ≤ (recs.length : Int) →
    parseLoop o s rows acc counter recs = .ok (recs, acc, counter, false) := by
  cases rows with
  | nil => intro acc counter recs _ _; simp [parseLoop]
  | cons row rest =>
    intro acc counter recs h1 h2
    simp only [parseLoop]
    rw [if_pos ⟨h1, h2⟩]

/-- Once the record cap is reached, `StreamRecords`' loop skips sampled-out
rows and breaks at the first gate-passing row, delivering nothing more and
leaving the accumulated time, record count and callback state untouched. -/
theorem streamLoop_capped (o : FilterOptions) (s : Int) {σ : Type}
    (cb : σ → EnemeterRecord → Except String σ) (rows : List Row) :
    ∀ acc counter n st, 0 < o.MaxRecords → o.MaxRecords ≤ n →
    ∃ c₂, streamLoop o s cb rows acc counter n st = .ok (st, acc, c₂, n, false) := by
  induction rows with
  | nil => intro acc counter n st _ _; exact ⟨counter, by simp [streamLoop]⟩
  | cons row rest ih =>
    intro acc counter n st h1 h2
    by_cases hg : counter + 1 < o.SampleRate
    · obtain ⟨c₂, hc⟩ := ih acc (counter + 1) n st h1 h2
      exact ⟨c₂, by simp only [streamLoop]; rw [if_pos hg]; exact hc⟩
    · refine ⟨0, ?_⟩
      simp only [streamLoop]
      rw [if_neg hg, if_pos ⟨h1, h2⟩]


/-- Coupling of the two loops: with the stream's record count tied to the
length of the batch loop's accumulated record list and a never-failing
callback, the streaming loop fails exactly when the batch loop fails (with
the same message), and on success delivers exactly the records the batch
loop appends, in order, with the same final accumulated time. -/
theorem parse_stream_gen (o : FilterOptions) (s : Int) {σ : Type}
    (g : σ → EnemeterRecord → σ) (rows : List Row) :
    ∀ acc counter recs (st : σ),
      (∀ e, parseLoop o s rows acc counter recs = .error e →
        streamLoop o s (fun t r => Except.ok (g t r)) rows acc counter (recs.length : Int) st
          = .error e) ∧
      (∀ recs' a c b, parseLoop o s rows acc counter recs = .ok (recs', a, c, b) →
        ∃ Δ c₂ n₂ b₂, recs' = recs ++ Δ ∧
          streamLoop o s (fun t r => Except.ok (g t r)) rows acc counter (recs.length : Int) st
            = .ok (List.foldl g st Δ, a, c₂, n₂, b₂)) := by
  induction rows with
  | nil =>
    intro acc counter recs st
    constructor
    · intro e h; simp [parseLoop] at h
    · intro recs' a c b h
      simp only [parseLoop, Except.ok.injEq, Prod.mk.injEq] at h
      obtain ⟨h1, h2, h3, h4⟩ := h
      refine ⟨[], counter, (recs.length : Int), false, by simp [h1], ?_⟩
      simp [streamLoop, h1, h2, h3, h4]
  | cons row rest ih =>
    intro acc counter recs st
    by_cases hcap : 0 < o.MaxRecords ∧ o.MaxRecords ≤ (recs.length : Int)
    · have hp : parseLoop o s (row :: rest) acc counter recs = .ok (recs, acc, counter, false) :=
        parseLoop_capped o s (row :: rest) acc counter recs hcap.1 hcap.2
      constructor
      · intro e h; rw [hp] at h; exact absurd h (by simp)
      · intro recs' a c b h
        rw [hp] at h
        simp only [Except.ok.injEq, Prod.mk.injEq] at h
        obtain ⟨h1, h2, h3, h4⟩ := h
        obtain ⟨c₂, hs⟩ := streamLoop_capped o s (fun t r => Except.ok (g t r)) (row :: rest)
          acc counter (recs.length : Int) st hcap.1 hcap.2
        refine ⟨[], c₂, (recs.length : Int), false, by simp [h1], ?_⟩
        simp only [List.foldl_nil]; rw [← h2]; exact hs
    · by_cases hg : counter + 1 < o.SampleRate
      · have ep : parseLoop o s (row :: rest) acc counter recs
            = parseLoop o s rest acc (counter + 1) recs := by
          simp only [parseLoop]; rw [if_neg hcap, if_pos hg]
        have es : streamLoop o s (fun t r => Except.ok (g t r)) (row :: rest) acc counter
              (recs.length : Int) st
            = streamLoop o s (fun t r => Except.ok (g t r)) rest acc (counter + 1)
              (recs.length : Int) st := by
          simp only [streamLoop]; rw [if_pos hg]
        constructor
        · intro e h; rw [ep] at h; rw [es]; exact (ih acc (counter + 1) recs st).1 e h
        · intro recs' a c b h; rw [ep] at h; rw [es]
          exact (ih acc (counter + 1) recs st).2 recs' a c b h
      · cases hstep : stepRow o s acc row with
        | fail e₀ =>
          have ep : parseLoop o s (row :: rest) acc counter recs = .error e₀ := by
            simp only [parseLoop]; rw [if_neg hcap, if_neg hg, hstep]
          have es : streamLoop o s (fun t r => Except.ok (g t r)) (row :: rest) acc counter
              (recs.length : Int) st = .error e₀ := by
            simp only [streamLoop]; rw [if_neg hg, if_neg hcap, hstep]
          constructor
          · intro e h; rw [ep] at h
            simp only [Except.error.injEq] at h
            rw [es, h]
          · intro recs' a c b h; rw [ep] at h; exact absurd h (by simp)
        | skip acc' =>
          have ep : parseLoop o s (row :: rest) acc counter recs
              = parseLoop o s rest acc' 0 recs := by
            simp only [parseLoop]; rw [if_neg hcap, if_neg hg, hstep]
          have es : streamLoop o s (fun t r => Except.ok (g t r)) (row :: rest) acc counter
                (recs.length : Int) st
              = streamLoop o s (fun t r => Except.ok (g t r)) rest acc' 0
                (recs.length : Int) st := by
            simp only [streamLoop]; rw [if_neg hg, if_neg hcap, hstep]
          constructor
          · intro e h; rw [ep] at h; rw [es]; exact (ih acc' 0 recs st).1 e h
          · intro recs' a c b h; rw [ep] at h; rw [es]
            exact (ih acc' 0 recs st).2 recs' a c b h
        | stop acc' =>
          have ep : parseLoop o s (row :: rest) acc counter recs
              = .ok (recs, acc', 0, true) := by
            simp only [parseLoop]; rw [if_neg hcap, if_neg hg, hstep]
          have es : streamLoop o s (fun t r => Except.ok (g t r)) (row :: rest) acc counter
                (recs.length : Int) st
              = .ok (st, acc', 0, (recs.length : Int), true) := by
            simp only [streamLoop]; rw [if_neg hg, if_neg hcap, hstep]
          constructor
          · intro e h; rw [ep] at h; exact absurd h (by simp)
          · intro recs' a c b h; rw [ep] at h
            simp only [Except.ok.injEq, Prod.mk.injEq] at h
            obtain ⟨h1, h2, h3, h4⟩ := h
            refine ⟨[], 0, (recs.length : Int), true, by simp [h1], ?_⟩
            simp only [List.foldl_nil]; rw [← h2]; exact es
        | emit acc' r =>
          have ep : parseLoop o s (row :: rest) acc counter recs
              = parseLoop o s rest acc' 0 (recs ++ [r]) := by
            simp only [parseLoop]; rw [if_neg hcap, if_neg hg, hstep]
          have es : streamLoop o s (fun t r => Except.ok (g t r)) (row :: rest) acc counter
                (recs.length : Int) st
              = streamLoop o s (fun t r => Except.ok (g t r)) rest acc' 0
                ((recs.length : Int) + 1) (g st r) := by
            simp only [streamLoop]; rw [if_neg hg, if_neg hcap, hstep]
          have hlen : (((recs ++ [r]).length : Nat) : Int) = (recs.length : Int) + 1 := by
            simp
          constructor
          · intro e h; rw [ep] at h
            have := (ih acc' 0 (recs ++ [r]) (g st r)).1 e h
            rw [hlen] at this
            rw [es]; exact this
          · intro recs' a c b h; rw [ep] at h
            obtain ⟨Δ, c₂, n₂, b₂, hΔ, hs⟩ := (ih acc' 0 (recs ++ [r]) (g st r)).2 recs' a c b h
            rw [hlen] at hs
            refine ⟨r :: Δ, c₂, n₂, b₂, by simp [hΔ], ?_⟩
            rw [es]; exact hs


/-- The record-counting component of the streaming fold does not influence
the tracker component. -/
theorem foldl_pair_fst (l : List EnemeterRecord) :
    ∀ (t : metricsTracker) (i : Int),
      (List.foldl (fun (p : metricsTracker × Int) r => (processRecord p.1 r, p.2 + 1)) (t, i) l).1
        = List.foldl processRecord t l := by
  induction l with
  | nil => intro t i; rfl
  | cons r rest ih => intro t i; exact ih (processRecord t r) (i + 1)

/-- Finalizing a freshly initialized tracker yields Go's zero-value
snapshot: no count guard fires and no sentinel extremum is exposed. -/
theorem finalize_fresh : finalizeMetrics newMetricsTracker = zeroEnergyMetrics := by
  unfold finalizeMetrics finalizeMetricsSt finalizeSolar finalizeBattery finalizeStats
    finalizeCore newMetricsTracker zeroEnergyMetrics
  norm_num

/-- `CalculateMetrics` is finalize-after-fold, its empty-list shortcut
agreeing with finalizing the fresh tracker. -/
theorem calcMetrics_foldl (recs : List EnemeterRecord) :
    finalizeMetrics (List.foldl processRecord newMetricsTracker recs) = CalculateMetrics recs := by
  cases recs with
  | nil => simpa [CalculateMetrics] using finalize_fresh
  | cons r rest => simp [CalculateMetrics]

/-- Bridge between the two public execution modes: streaming aggregation
returns exactly the batch aggregation of the records `Parse` yields, and
fails exactly when `Parse` fails, with the wrapped message. -/
theorem stream_of_parse (o : FilterOptions) (rows : List Row) :
    (∀ recs, Parse o rows = .ok recs →
       StreamCalculateMetrics o rows = .ok (CalculateMetrics recs)) ∧
    (∀ e, Parse o rows = .error e →
       StreamCalculateMetrics o rows = .error ("streaming calculation error: " ++ e)) := by
  cases hst : o.StartTime with
  | none =>
    constructor
    · intro recs h; simp [Parse, hst] at h
    · intro e h
      simp [Parse, hst] at h
      simp [StreamCalculateMetrics, StreamRecords, hst, ← h]
  | some s =>
    have psg := parse_stream_gen o s
      (fun (p : metricsTracker × Int) r => (processRecord p.1 r, p.2 + 1)) rows 0 0 []
      (newMetricsTracker, (0 : Int))
    constructor
    · intro recs h
      cases hpl : parseLoop o s rows 0 0 [] with
      | error e => simp [Parse, hst, hpl, Except.map] at h
      | ok q =>
        obtain ⟨recs₀, a, c, b⟩ := q
        simp only [Parse, hst, hpl, Except.map, Except.ok.injEq] at h
        obtain ⟨Δ, c₂, n₂, b₂, hΔ, hs⟩ := psg.2 recs₀ a c b hpl
        simp only [List.nil_append] at hΔ
        simp only [StreamCalculateMetrics, StreamRecords, hst, List.length_nil,
          Nat.cast_zero] at hs ⊢
        rw [hs]
        simp only [Except.map]
        rw [foldl_pair_fst, calcMetrics_foldl, hΔ.symm.trans h]
    · intro e h
      cases hpl : parseLoop o s rows 0 0 [] with
      | ok q => simp [Parse, hst, hpl, Except.map] at h
      | error e₀ =>
        simp only [Parse, hst, hpl, Except.map, Except.error.injEq] at h
        have hs := psg.1 e₀ hpl
        simp only [List.length_nil, Nat.cast_zero] at hs
        simp only [StreamCalculateMetrics, StreamRecords, hst, hs, Except.map, h]

/-- C1: for every sequence of input rows and every filter configuration,
the batch path (`Parse` materializes the accepted records, then
`CalculateMetrics` folds the list) and the streaming path
(`StreamCalculateMetrics` folds each record as `StreamRecords` decodes it)
agree: on success both produce identical `EnergyMetrics` snapshots, and on
failure both fail (the streaming error wrapping the same parse error). -/
theorem batch_and_streaming_paths_agree (o : FilterOptions) (rows : List Row) :
    match Parse o rows with
    | .ok recs => StreamCalculateMetrics o rows = .ok (CalculateMetrics recs)
    | .error e => StreamCalculateMetrics o rows = .error ("streaming calculation error: " ++ e) := by
  cases h : Parse o rows with
  | ok recs => exact (stream_of_parse o rows).1 recs h
  | error e => exact (stream_of_parse o rows).2 e h


/-! ## Sampling-gate analysis -/

/-- The same filter configuration with the sampling stride set to 1
(a stride-1 scan decodes every row it reads). -/
def withStride1 (o : FilterOptions) : FilterOptions := { o with SampleRate := 1 }

theorem withStride1_SampleRate (o : FilterOptions) : (withStride1 o).SampleRate = 1 := rfl

theorem withStride1_MaxRecords (o : FilterOptions) : (withStride1 o).MaxRecords = o.MaxRecords := rfl

theorem withStride1_StartTime (o : FilterOptions) : (withStride1 o).StartTime = o.StartTime := rfl

/-- The shared loop body reads no sampling configuration. -/
theorem stepRow_withStride1 (o : FilterOptions) (s acc : Int) (row : Row) :
    stepRow (withStride1 o) s acc row = stepRow o s acc row := rfl

/-- A stride-1 gate never skips: `counter + 1 < 1` is false for the
counter values the loops use (0 after every reset). -/
theorem stride1_gate_passes : ¬ ((0 : Int) + 1 < 1) := by norm_num

/-- `Parse`'s loop behaves, up to the value of its sampling counter, like a
stride-1 scan of exactly the gate-kept rows: sampled-out rows are neither
decoded nor allowed to advance the accumulated time. -/
theorem parseLoop_stride_norm (o : FilterOptions) (s : Int) (rows : List Row) :
    ∀ acc counter recs,
      (parseLoop o s rows acc counter recs).map (fun x => (x.1, x.2.1, x.2.2.2))
        = (parseLoop (withStride1 o) s (keptRows o.SampleRate counter rows) acc 0 recs).map
            (fun x => (x.1, x.2.1, x.2.2.2)) := by
  induction rows with
  | nil => intro acc counter recs; simp [parseLoop, keptRows, Except.map]
  | cons row rest ih =>
    intro acc counter recs
    by_cases hcap : 0 < o.MaxRecords ∧ o.MaxRecords ≤ (recs.length : Int)
    · have h1 : parseLoop o s (row :: rest) acc counter recs = .ok (recs, acc, counter, false) :=
        parseLoop_capped _ _ _ _ _ _ hcap.1 hcap.2
      have h2 : parseLoop (withStride1 o) s (keptRows o.SampleRate counter (row :: rest)) acc 0 recs
          = .ok (recs, acc, 0, false) :=
        parseLoop_capped _ _ _ _ _ _ hcap.1 hcap.2
      simp [h1, h2, Except.map]
    · by_cases hg : counter + 1 < o.SampleRate
      · have ep : parseLoop o s (row :: rest) acc counter recs
            = parseLoop o s rest acc (counter + 1) recs := by
          simp only [parseLoop]; rw [if_neg hcap, if_pos hg]
        have ek : keptRows o.SampleRate counter (row :: rest)
            = keptRows o.SampleRate (counter + 1) rest := by
          simp only [keptRows]; rw [if_pos hg]
        rw [ep, ek]; exact ih acc (counter + 1) recs
      · have ek : keptRows o.SampleRate counter (row :: rest)
            = row :: keptRows o.SampleRate 0 rest := by
          simp only [keptRows]; rw [if_neg hg]
        rw [ek]
        cases hstep : stepRow o s acc row with
        | fail e₀ =>
          have ep : parseLoop o s (row :: rest) acc counter recs = .error e₀ := by
            simp only [parseLoop]; rw [if_neg hcap, if_neg hg, hstep]
          have eq2 : parseLoop (withStride1 o) s (row :: keptRows o.SampleRate 0 rest) acc 0 recs
              = .error e₀ := by
            simp only [parseLoop, withStride1_SampleRate, withStride1_MaxRecords,
              stepRow_withStride1]
            rw [if_neg hcap, if_neg stride1_gate_passes, hstep]
          rw [ep, eq2]
        | skip acc' =>
          have ep : parseLoop o s (row :: rest) acc counter recs
              = parseLoop o s rest acc' 0 recs := by
            simp only [parseLoop]; rw [if_neg hcap, if_neg hg, hstep]
          have eq2 : parseLoop (withStride1 o) s (row :: keptRows o.SampleRate 0 rest) acc 0 recs
              = parseLoop (withStride1 o) s (keptRows o.SampleRate 0 rest) acc' 0 recs := by
            simp only [parseLoop, withStride1_SampleRate, withStride1_MaxRecords,
              stepRow_withStride1]
            rw [if_neg hcap, if_neg stride1_gate_passes, hstep]
          rw [ep, eq2]; exact ih acc' 0 recs
        | stop acc' =>
          have ep : parseLoop o s (row :: rest) acc counter recs = .ok (recs, acc', 0, true) := by
            simp only [parseLoop]; rw [if_neg hcap, if_neg hg, hstep]
          have eq2 : parseLoop (withStride1 o) s (row :: keptRows o.SampleRate 0 rest) acc 0 recs
              = .ok (recs, acc', 0, true) := by
            simp only [parseLoop, withStride1_SampleRate, withStride1_MaxRecords,
              stepRow_withStride1]
            rw [if_neg hcap, if_neg stride1_gate_passes, hstep]
          rw [ep, eq2]
        | emit acc' r =>
          have ep : parseLoop o s (row :: rest) acc counter recs
              = parseLoop o s rest acc' 0 (recs ++ [r]) := by
            simp only [parseLoop]; rw [if_neg hcap, if_neg hg, hstep]
          have eq2 : parseLoop (withStride1 o) s (row :: keptRows o.SampleRate 0 rest) acc 0 recs
              = parseLoop (withStride1 o) s (keptRows o.SampleRate 0 rest) acc' 0 (recs ++ [r]) := by
            simp only [parseLoop, withStride1_SampleRate, withStride1_MaxRecords,
              stepRow_withStride1]
            rw [if_neg hcap, if_neg stride1_gate_passes, hstep]
          rw [ep, eq2]; exact ih acc' 0 (recs ++ [r])

/-- `StreamRecords`' loop likewise behaves, up to its sampling counter, like
a stride-1 scan of exactly the gate-kept rows. -/
theorem streamLoop_stride_norm (o : FilterOptions) (s : Int) {σ : Type}
    (cb : σ → EnemeterRecord → Except String σ) (rows : List Row) :
    ∀ acc counter n st,
      (streamLoop o s cb rows acc counter n st).map (fun x => (x.1, x.2.1, x.2.2.2.1, x.2.2.2.2))
        = (streamLoop (withStride1 o) s cb (keptRows o.SampleRate counter rows) acc 0 n st).map
            (fun x => (x.1, x.2.1, x.2.2.2.1, x.2.2.2.2)) := by
  induction rows with
  | nil => intro acc counter n st; simp [streamLoop, keptRows, Except.map]
  | cons row rest ih =>
    intro acc counter n st
    by_cases hg : counter + 1 < o.SampleRate
    · have ep : streamLoop o s cb (row :: rest) acc counter n st
          = streamLoop o s cb rest acc (counter + 1) n st := by
        simp only [streamLoop]; rw [if_pos hg]
      have ek : keptRows o.SampleRate counter (row :: rest)
          = keptRows o.SampleRate (counter + 1) rest := by
        simp only [keptRows]; rw [if_pos hg]
      rw [ep, ek]; exact ih acc (counter + 1) n st
    · have ek : keptRows o.SampleRate counter (row :: rest)
          = row :: keptRows o.SampleRate 0 rest := by
        simp only [keptRows]; rw [if_neg hg]
      rw [ek]
      by_cases hcap : 0 < o.MaxRecords ∧ o.MaxRecords ≤ n
      · have ep : streamLoop o s cb (row :: rest) acc counter n st
            = .ok (st, acc, 0, n, false) := by
          simp only [streamLoop]; rw [if_neg hg, if_pos hcap]
        have eq2 : streamLoop (withStride1 o) s cb (row :: keptRows o.SampleRate 0 rest) acc 0 n st
            = .ok (st, acc, 0, n, false) := by
          simp only [streamLoop, withStride1_SampleRate, withStride1_MaxRecords]
          rw [if_neg stride1_gate_passes, if_pos hcap]
        rw [ep, eq2]
      · cases hstep : stepRow o s acc row with
        | fail e₀ =>
          have ep : streamLoop o s cb (row :: rest) acc counter n st = .error e₀ := by
            simp only [streamLoop]; rw [if_neg hg, if_neg hcap, hstep]
          have eq2 : streamLoop (withStride1 o) s cb (row :: keptRows o.SampleRate 0 rest) acc 0 n st
              = .error e₀ := by
            simp only [streamLoop, withStride1_SampleRate, withStride1_MaxRecords,
              stepRow_withStride1]
            rw [if_neg stride1_gate_passes, if_neg hcap, hstep]
          rw [ep, eq2]
        | skip acc' =>
          have ep : streamLoop o s cb (row :: rest) acc counter n st
              = streamLoop o s cb rest acc' 0 n st := by
            simp only [streamLoop]; rw [if_neg hg, if_neg hcap, hstep]
          have eq2 : streamLoop (withStride1 o) s cb (row :: keptRows o.SampleRate 0 rest) acc 0 n st
              = streamLoop (withStride1 o) s cb (keptRows o.SampleRate 0 rest) acc' 0 n st := by
            simp only [streamLoop, withStride1_SampleRate, withStride1_MaxRecords,
              stepRow_withStride1]
            rw [if_neg stride1_gate_passes, if_neg hcap, hstep]
          rw [ep, eq2]; exact ih acc' 0 n st
        | stop acc' =>
          have ep : streamLoop o s cb (row :: rest) acc counter n st
              = .ok (st, acc', 0, n, true) := by
            simp only [streamLoop]; rw [if_neg hg, if_neg hcap, hstep]
          have eq2 : streamLoop (withStride1 o) s cb (row :: keptRows o.SampleRate 0 rest) acc 0 n st
              = .ok (st, acc', 0, n, true) := by
            simp only [streamLoop, withStride1_SampleRate, withStride1_MaxRecords,
              stepRow_withStride1]
            rw [if_neg stride1_gate_passes, if_neg hcap, hstep]
          rw [ep, eq2]
        | emit acc' r =>
          have ep : streamLoop o s cb (row :: rest) acc counter n st
              = (match cb st r with
                 | .error e => .error ("callback error: " ++ e)
                 | .ok st' => streamLoop o s cb rest acc' 0 (n + 1) st') := by
            simp only [streamLoop]; rw [if_neg hg, if_neg hcap, hstep]
          have eq2 : streamLoop (withStride1 o) s cb (row :: keptRows o.SampleRate 0 rest) acc 0 n st
              = (match cb st r with
                 | .error e => .error ("callback error: " ++ e)
                 | .ok st' => streamLoop (withStride1 o) s cb (keptRows o.SampleRate 0 rest)
                     acc' 0 (n + 1) st') := by
            simp only [streamLoop, withStride1_SampleRate, withStride1_MaxRecords,
              stepRow_withStride1]
            rw [if_neg stride1_gate_passes, if_neg hcap, hstep]
          rw [ep, eq2]
          cases hcb : cb st r with
          | error e₀ => rfl
          | ok st' => exact ih acc' 0 (n + 1) st'

/-- Top-level form of the gate normalization for `Parse`. -/
theorem Parse_stride_norm (o : FilterOptions) (rows : List Row) :
    Parse o rows = Parse (withStride1 o) (keptRows o.SampleRate 0 rows) := by
  cases hst : o.StartTime with
  | none => simp [Parse, hst, withStride1_StartTime, withStride1]
  | some s =>
    have e1 : Parse o rows = Except.map (fun x => x.1) (parseLoop o s rows 0 0 []) := by
      simp [Parse, hst]
    have e2 : Parse (withStride1 o) (keptRows o.SampleRate 0 rows)
        = Except.map (fun x => x.1)
            (parseLoop (withStride1 o) s (keptRows o.SampleRate 0 rows) 0 0 []) := by
      have : (withStride1 o).StartTime = some s := by rw [withStride1_StartTime, hst]
      simp [Parse, this]
    have h := parseLoop_stride_norm o s rows 0 0 []
    rw [e1, e2]
    cases hpl : parseLoop o s rows 0 0 [] with
    | error e =>
      rw [hpl] at h
      cases hpr : parseLoop (withStride1 o) s (keptRows o.SampleRate 0 rows) 0 0 [] with
      | error e₂ =>
        rw [hpr] at h; simp [Except.map] at h
        simp [Except.map, h]
      | ok y => rw [hpr] at h; simp [Except.map] at h
    | ok x =>
      rw [hpl] at h
      cases hpr : parseLoop (withStride1 o) s (keptRows o.SampleRate 0 rows) 0 0 [] with
      | error e₂ => rw [hpr] at h; simp [Except.map] at h
      | ok y =>
        rw [hpr] at h
        simp only [Except.map, Except.ok.injEq, Prod.mk.injEq] at h
        simp [Except.map, h.1]

/-- Top-level form of the gate normalization for `StreamRecords`. -/
theorem StreamRecords_stride_norm (o : FilterOptions) (rows : List Row) {σ : Type}
    (cb : σ → EnemeterRecord → Except String σ) (init : σ) :
    StreamRecords o rows cb init
      = StreamRecords (withStride1 o) (keptRows o.SampleRate 0 rows) cb init := by
  cases hst : o.StartTime with
  | none => simp [StreamRecords, hst, withStride1_StartTime, withStride1]
  | some s =>
    have e1 : StreamRecords o rows cb init
        = Except.map (fun x => x.1) (streamLoop o s cb rows 0 0 0 init) := by
      simp [StreamRecords, hst]
    have e2 : StreamRecords (withStride1 o) (keptRows o.SampleRate 0 rows) cb init
        = Except.map (fun x => x.1)
            (streamLoop (withStride1 o) s cb (keptRows o.SampleRate 0 rows) 0 0 0 init) := by
      have : (withStride1 o).StartTime = some s := by rw [withStride1_StartTime, hst]
      simp [StreamRecords, this]
    have h := streamLoop_stride_norm o s cb rows 0 0 0 init
    rw [e1, e2]
    cases hpl : streamLoop o s cb rows 0 0 0 init with
    | error e =>
      rw [hpl] at h
      cases hpr : streamLoop (withStride1 o) s cb (keptRows o.SampleRate 0 rows) 0 0 0 init with
      | error e₂ =>
        rw [hpr] at h; simp [Except.map] at h
        simp [Except.map, h]
      | ok y => rw [hpr] at h; simp [Except.map] at h
    | ok x =>
      rw [hpl] at h
      cases hpr : streamLoop (withStride1 o) s cb (keptRows o.SampleRate 0 rows) 0 0 0 init with
      | error e₂ => rw [hpr] at h; simp [Except.map] at h
      | ok y =>
        rw [hpr] at h
        simp only [Except.map, Except.ok.injEq, Prod.mk.injEq] at h
        simp [Except.map, h.1]


/-- A stride at most 1 makes the incremented counter (always positive)
never fall below the stride, so no row is ever sampled out. -/
theorem keptRows_all (rate : Int) (rows : List Row) :
    ∀ counter, rate ≤ 1 → 0 ≤ counter → keptRows rate counter rows = rows := by
  induction rows with
  | nil => intro counter _ _; rfl
  | cons row rest ih =>
    intro counter h1 h2
    have hng : ¬ counter + 1 < rate := by omega
    simp only [keptRows]; rw [if_neg hng, ih 0 h1 le_rfl]

/-- C3 (amended): the sampling counter is incremented per raw row read,
before any decoding; both decoders behave exactly like a stride-1 scan of
the gate-kept (every Nth raw) rows, so rows skipped by the gate are never
shape-checked or integer-parsed, and a malformed or unparsable row at a
sampled-out position is silently skipped rather than fatal. -/
theorem sampling_counter_counts_raw_rows (o : FilterOptions) (rows : List Row) :
    Parse o rows = Parse (withStride1 o) (keptRows o.SampleRate 0 rows) ∧
    ∀ {σ : Type} (cb : σ → EnemeterRecord → Except String σ) (init : σ),
      StreamRecords o rows cb init
        = StreamRecords (withStride1 o) (keptRows o.SampleRate 0 rows) cb init :=
  ⟨Parse_stride_norm o rows, fun cb init => StreamRecords_stride_norm o rows cb init⟩

/-- C3 counterexample: with stride 2, a first row whose time-delta field is
the unparsable string `"x"` falls at a sampled-out position; the claim says
such a row is fatal to the whole run, but the scan succeeds and accepts the
second row (whose accumulated time also ignores the skipped row). -/
theorem malformed_row_skipped_by_gate_is_not_fatal :
    Parse ⟨some 0, none, 2, 0, none, none, none⟩
        [["x", "0", "0", "0"], ["0", "0", "0", "0"]]
      = .ok [⟨0, 0, 0, 0, 0⟩] := rfl

/-- C10: a configured stride of at most 1 (including zero and negative
values) keeps every row: the gate never skips issuing rows, and the scan
behaves exactly like a stride-1 scan — in particular no error is raised on
account of the out-of-range stride. -/
theorem stride_le_one_keeps_every_row (o : FilterOptions) (rows : List Row)
    (h : o.SampleRate ≤ 1) :
    keptRows o.SampleRate 0 rows = rows ∧
    Parse o rows = Parse (withStride1 o) rows ∧
    ∀ {σ : Type} (cb : σ → EnemeterRecord → Except String σ) (init : σ),
      StreamRecords o rows cb init = StreamRecords (withStride1 o) rows cb init := by
  have hk := keptRows_all o.SampleRate rows 0 h le_rfl
  exact ⟨hk, by rw [Parse_stride_norm, hk],
    fun cb init => by rw [StreamRecords_stride_norm o rows cb init, hk]⟩

/-- Witness for C10 at stride 0 on one concrete row. -/
theorem stride_le_one_keeps_every_row_witness :
    keptRows (0 : Int) 0 [["1", "2", "3", "4"]] = [["1", "2", "3", "4"]] ∧
    Parse ⟨some 0, none, 0, 0, none, none, none⟩ [["1", "2", "3", "4"]]
        = Parse (withStride1 ⟨some 0, none, 0, 0, none, none, none⟩) [["1", "2", "3", "4"]] ∧
    StreamRecords ⟨some 0, none, 0, 0, none, none, none⟩ [["1", "2", "3", "4"]]
        (fun (l : List EnemeterRecord) r => Except.ok (l ++ [r])) []
      = StreamRecords (withStride1 ⟨some 0, none, 0, 0, none, none, none⟩) [["1", "2", "3", "4"]]
        (fun l r => Except.ok (l ++ [r])) [] := by
  obtain ⟨h1, h2, h3⟩ := stride_le_one_keeps_every_row
    ⟨some 0, none, 0, 0, none, none, none⟩ [["1", "2", "3", "4"]] (by norm_num)
  exact ⟨h1, h2, h3 _ _⟩


/-! ## Time accumulation -/

/-- A `skip` outcome carries the accumulated time advanced by the decoded
row's own time delta. -/
theorem stepRow_skip_acc {o : FilterOptions} {s acc : Int} {row : Row} {acc' : Int}
    (h : stepRow o s acc row = .skip acc') : acc' = acc + rowTimeDelta row := by
  unfold stepRow at h
  unfold rowTimeDelta
  cases hdec : decodeRow row with
  | error e => rw [hdec] at h; simp at h
  | ok q =>
    obtain ⟨td, v, cu, tm⟩ := q
    rw [hdec] at h
    simp only [] at h
    split_ifs at h <;> simp_all

/-- A `stop` outcome carries the accumulated time advanced by the decoded
row's own time delta. -/
theorem stepRow_stop_acc {o : FilterOptions} {s acc : Int} {row : Row} {acc' : Int}
    (h : stepRow o s acc row = .stop acc') : acc' = acc + rowTimeDelta row := by
  unfold stepRow at h
  unfold rowTimeDelta
  cases hdec : decodeRow row with
  | error e => rw [hdec] at h; simp at h
  | ok q =>
    obtain ⟨td, v, cu, tm⟩ := q
    rw [hdec] at h
    simp only [] at h
    split_ifs at h <;> simp_all

/-- An `emit` outcome carries the accumulated time advanced by the decoded
row's own time delta. -/
theorem stepRow_emit_acc {o : FilterOptions} {s acc : Int} {row : Row} {acc' : Int}
    {r : EnemeterRecord} (h : stepRow o s acc row = .emit acc' r) :
    acc' = acc + rowTimeDelta row := by
  unfold stepRow at h
  unfold rowTimeDelta
  cases hdec : decodeRow row with
  | error e => rw [hdec] at h; simp at h
  | ok q =>
    obtain ⟨td, v, cu, tm⟩ := q
    rw [hdec] at h
    simp only [] at h
    split_ifs at h <;> simp_all

/-- Without a configured end bound the shared body never issues a `stop`. -/
theorem stepRow_no_stop {o : FilterOptions} {s acc : Int} {row : Row} {acc' : Int}
    (hend : o.EndTime = none) : stepRow o s acc row ≠ .stop acc' := by
  unfold stepRow
  cases hdec : decodeRow row with
  | error e => simp
  | ok q =>
    obtain ⟨td, v, cu, tm⟩ := q
    rw [hend]
    simp only [afterEnd]
    split_ifs <;> simp_all

/-- With no end bound and no record cap, `Parse`'s loop runs to end of
input, and the final accumulated time is the initial one plus the sum of
the time deltas of exactly the gate-kept rows (sampled-out rows contribute
nothing). -/
theorem parseLoop_acc (o : FilterOptions) (s : Int) (rows : List Row)
    (hend : o.EndTime = none) (hmax : o.MaxRecords ≤ 0) :
    ∀ acc counter recs recs' a c b,
      parseLoop o s rows acc counter recs = .ok (recs', a, c, b) →
      a = acc + ((keptRows o.SampleRate counter rows).map rowTimeDelta).sum := by
  induction rows with
  | nil =>
    intro acc counter recs recs' a c b h
    simp only [parseLoop, Except.ok.injEq, Prod.mk.injEq] at h
    simp [keptRows, ← h.2.1]
  | cons row rest ih =>
    intro acc counter recs recs' a c b h
    have hcap : ¬(0 < o.MaxRecords ∧ o.MaxRecords ≤ (recs.length : Int)) := by
      rintro ⟨h1, _⟩; omega
    by_cases hg : counter + 1 < o.SampleRate
    · rw [show parseLoop o s (row :: rest) acc counter recs
          = parseLoop o s rest acc (counter + 1) recs by
        simp only [parseLoop]; rw [if_neg hcap, if_pos hg]] at h
      rw [show keptRows o.SampleRate counter (row :: rest)
          = keptRows o.SampleRate (counter + 1) rest by
        simp only [keptRows]; rw [if_pos hg]]
      exact ih acc (counter + 1) recs recs' a c b h
    · have hk : keptRows o.SampleRate counter (row :: rest)
          = row :: keptRows o.SampleRate 0 rest := by
        simp only [keptRows]; rw [if_neg hg]
      cases hstep : stepRow o s acc row with
      | fail e₀ =>
        rw [show parseLoop o s (row :: rest) acc counter recs = .error e₀ by
          simp only [parseLoop]; rw [if_neg hcap, if_neg hg, hstep]] at h
        exact absurd h (by simp)
      | skip acc' =>
        rw [show parseLoop o s (row :: rest) acc counter recs
            = parseLoop o s rest acc' 0 recs by
          simp only [parseLoop]; rw [if_neg hcap, if_neg hg, hstep]] at h
        have := ih acc' 0 recs recs' a c b h
        rw [hk]
        simp only [List.map_cons, List.sum_cons]
        rw [this, stepRow_skip_acc hstep]
        ring
      | stop acc' => exact absurd hstep (stepRow_no_stop hend)
      | emit acc' r =>
        rw [show parseLoop o s (row :: rest) acc counter recs
            = parseLoop o s rest acc' 0 (recs ++ [r]) by
          simp only [parseLoop]; rw [if_neg hcap, if_neg hg, hstep]] at h
        have := ih acc' 0 (recs ++ [r]) recs' a c b h
        rw [hk]
        simp only [List.map_cons, List.sum_cons]
        rw [this, stepRow_emit_acc hstep]
        ring

/-- Same accumulated-time characterization for `StreamRecords`' loop. -/
theorem streamLoop_acc (o : FilterOptions) (s : Int) {σ : Type}
    (cb : σ → EnemeterRecord → Except String σ) (rows : List Row)
    (hend : o.EndTime = none) (hmax : o.MaxRecords ≤ 0) :
    ∀ acc counter n st st' a c n' b,
      streamLoop o s cb rows acc counter n st = .ok (st', a, c, n', b) →
      a = acc + ((keptRows o.SampleRate counter rows).map rowTimeDelta).sum := by
  induction rows with
  | nil =>
    intro acc counter n st st' a c n' b h
    simp only [streamLoop, Except.ok.injEq, Prod.mk.injEq] at h
    simp [keptRows, ← h.2.1]
  | cons row rest ih =>
    intro acc counter n st st' a c n' b h
    have hcap : ¬(0 < o.MaxRecords ∧ o.MaxRecords ≤ n) := by
      rintro ⟨h1, _⟩; omega
    by_cases hg : counter + 1 < o.SampleRate
    · rw [show streamLoop o s cb (row :: rest) acc counter n st
          = streamLoop o s cb rest acc (counter + 1) n st by
        simp only [streamLoop]; rw [if_pos hg]] at h
      rw [show keptRows o.SampleRate counter (row :: rest)
          = keptRows o.SampleRate (counter + 1) rest by
        simp only [keptRows]; rw [if_pos hg]]
      exact ih acc (counter + 1) n st st' a c n' b h
    · have hk : keptRows o.SampleRate counter (row :: rest)
          = row :: keptRows o.SampleRate 0 rest := by
        simp only [keptRows]; rw [if_neg hg]
      cases hstep : stepRow o s acc row with
      | fail e₀ =>
        rw [show streamLoop o s cb (row :: rest) acc counter n st = .error e₀ by
          simp only [streamLoop]; rw [if_neg hg, if_neg hcap, hstep]] at h
        exact absurd h (by simp)
      | skip acc' =>
        rw [show streamLoop o s cb (row :: rest) acc counter n st
            = streamLoop o s cb rest acc' 0 n st by
          simp only [streamLoop]; rw [if_neg hg, if_neg hcap, hstep]] at h
        have := ih acc' 0 n st st' a c n' b h
        rw [hk]
        simp only [List.map_cons, List.sum_cons]
        rw [this, stepRow_skip_acc hstep]
        ring
      | stop acc' => exact absurd hstep (stepRow_no_stop hend)
      | emit acc' r =>
        rw [show streamLoop o s cb (row :: rest) acc counter n st
            = (match cb st r with
               | .error e => .error ("callback error: " ++ e)
               | .ok st₂ => streamLoop o s cb rest acc' 0 (n + 1) st₂) by
          simp only [streamLoop]; rw [if_neg hg, if_neg hcap, hstep]] at h
        cases hcb : cb st r with
        | error e₀ => rw [hcb] at h; exact absurd h (by simp)
        | ok st₂ =>
          rw [hcb] at h
          have := ih acc' 0 (n + 1) st₂ st' a c n' b h
          rw [hk]
          simp only [List.map_cons, List.sum_cons]
          rw [this, stepRow_emit_acc hstep]
          ring

/-- C2 (amended): with no end bound and no record cap, whenever either
decoder loop completes on a row prefix, the running cumulative millisecond
total equals the initial total plus the sum of the time deltas of exactly
the rows that passed the sampling gate (all of which were decoded); rows
skipped by the sampling gate contribute nothing, so derived timestamps do
depend on the stride. -/
theorem running_total_sums_kept_row_deltas (o : FilterOptions) (s : Int) (rows : List Row)
    (hend : o.EndTime = none) (hmax : o.MaxRecords ≤ 0) :
    (∀ acc counter recs recs' a c b,
        parseLoop o s rows acc counter recs = .ok (recs', a, c, b) →
        a = acc + ((keptRows o.SampleRate counter rows).map rowTimeDelta).sum) ∧
    (∀ {σ : Type} (cb : σ → EnemeterRecord → Except String σ) acc counter n st st' a c n' b,
        streamLoop o s cb rows acc counter n st = .ok (st', a, c, n', b) →
        a = acc + ((keptRows o.SampleRate counter rows).map rowTimeDelta).sum) :=
  ⟨parseLoop_acc o s rows hend hmax,
   fun cb acc counter n st st' a c n' b h => streamLoop_acc o s cb rows hend hmax
     acc counter n st st' a c n' b h⟩

/-- Witness for C2 (amended) on a concrete stride-2 scan: the kept second
row alone advances the total, to 10 ms. -/
theorem running_total_sums_kept_row_deltas_witness :
    parseLoop ⟨some 0, none, 2, 0, none, none, none⟩ 0
        [["10", "0", "0", "0"], ["10", "0", "0", "0"]] 0 0 []
      = .ok ([⟨10, 0, 0, 0, 10⟩], 10, 0, false) ∧
    (10 : Int) = 0 + ((keptRows 2 0 [["10", "0", "0", "0"], ["10", "0", "0", "0"]]).map
        rowTimeDelta).sum := by
  have h := (running_total_sums_kept_row_deltas ⟨some 0, none, 2, 0, none, none, none⟩ 0
    [["10", "0", "0", "0"], ["10", "0", "0", "0"]] rfl (by norm_num)).1
    0 0 [] [⟨10, 0, 0, 0, 10⟩] 10 0 false rfl
  exact ⟨rfl, h⟩

/-- C2 counterexample: with identical rows, stride 2 derives timestamp
10 ms for the (single) accepted record while stride 1 derives 20 ms for
the same physical second row — the accepted record's derived timestamp is
not independent of the stride, because the skipped first row's delta was
never accumulated. -/
theorem sampled_out_rows_do_not_advance_time :
    Parse ⟨some 0, none, 2, 0, none, none, none⟩
        [["10", "0", "0", "0"], ["10", "0", "0", "0"]]
      = .ok [⟨10, 0, 0, 0, 10⟩] ∧
    Parse ⟨some 0, none, 1, 0, none, none, none⟩
        [["10", "0", "0", "0"], ["10", "0", "0", "0"]]
      = .ok [⟨10, 0, 0, 0, 10⟩, ⟨10, 0, 0, 0, 20⟩] := ⟨rfl, rfl⟩


/-! ## End-bound termination -/

/-- A successfully decoded, gate-passing row whose derived timestamp is not
before the start and strictly after the configured end makes the shared
body issue the `break`. -/
theorem stepRow_stop_of_after_end (o : FilterOptions) (s e : Int) (row : Row)
    (acc td v cu tm : Int) (hdec : decodeRow row = .ok (td, v, cu, tm))
    (he : o.EndTime = some e) (h1 : ¬ s + (acc + td) < s) (h2 : s + (acc + td) > e) :
    stepRow o s acc row = .stop (acc + td) := by
  unfold stepRow
  rw [hdec]
  simp only []
  rw [if_neg h1]
  have hb : afterEnd o.EndTime (s + (acc + td)) = true := by
    rw [he]; simp [afterEnd]; exact h2
  rw [if_pos hb]

/-- An emitted record passed both window checks: its derived timestamp is
not before the start and the end-bound test was false. -/
theorem stepRow_emit_window {o : FilterOptions} {s acc : Int} {row : Row}
    {acc' : Int} {r : EnemeterRecord} (h : stepRow o s acc row = .emit acc' r) :
    ¬ s + acc' < s ∧ afterEnd o.EndTime (s + acc') = false := by
  unfold stepRow at h
  cases hdec : decodeRow row with
  | error e => rw [hdec] at h; simp at h
  | ok q =>
    obtain ⟨td, v, cu, tm⟩ := q
    rw [hdec] at h
    simp only [] at h
    split_ifs at h with h1 h2 h3 h4 h5 <;> simp_all

/-- Once `Parse`'s loop has ended via the end-bound `break`, any rows
appended after the input change nothing: they are never read, decoded or
emitted. -/
theorem parseLoop_stopped_append (o : FilterOptions) (s : Int) (rows : List Row) :
    ∀ extra acc counter recs recs' a c,
      parseLoop o s rows acc counter recs = .ok (recs', a, c, true) →
      parseLoop o s (rows ++ extra) acc counter recs = .ok (recs', a, c, true) := by
  induction rows with
  | nil =>
    intro extra acc counter recs recs' a c h
    simp [parseLoop] at h
  | cons row rest ih =>
    intro extra acc counter recs recs' a c h
    simp only [List.cons_append]
    by_cases hcap : 0 < o.MaxRecords ∧ o.MaxRecords ≤ (recs.length : Int)
    · rw [parseLoop_capped _ _ _ _ _ _ hcap.1 hcap.2] at h
      simp at h
    · by_cases hg : counter + 1 < o.SampleRate
      · rw [show parseLoop o s (row :: rest) acc counter recs
            = parseLoop o s rest acc (counter + 1) recs by
          simp only [parseLoop]; rw [if_neg hcap, if_pos hg]] at h
        rw [show parseLoop o s (row :: (rest ++ extra)) acc counter recs
            = parseLoop o s (rest ++ extra) acc (counter + 1) recs by
          simp only [parseLoop]; rw [if_neg hcap, if_pos hg]]
        exact ih extra acc (counter + 1) recs recs' a c h
      · cases hstep : stepRow o s acc row with
        | fail e₀ =>
          rw [show parseLoop o s (row :: rest) acc counter recs = .error e₀ by
            simp only [parseLoop]; rw [if_neg hcap, if_neg hg, hstep]] at h
          exact absurd h (by simp)
        | skip acc' =>
          rw [show parseLoop o s (row :: rest) acc counter recs
              = parseLoop o s rest acc' 0 recs by
            simp only [parseLoop]; rw [if_neg hcap, if_neg hg, hstep]] at h
          rw [show parseLoop o s (row :: (rest ++ extra)) acc counter recs
              = parseLoop o s (rest ++ extra) acc' 0 recs by
            simp only [parseLoop]; rw [if_neg hcap, if_neg hg, hstep]]
          exact ih extra acc' 0 recs recs' a c h
        | stop acc' =>
          rw [show parseLoop o s (row :: rest) acc counter recs = .ok (recs, acc', 0, true) by
            simp only [parseLoop]; rw [if_neg hcap, if_neg hg, hstep]] at h
          rw [show parseLoop o s (row :: (rest ++ extra)) acc counter recs
              = .ok (recs, acc', 0, true) by
            simp only [parseLoop]; rw [if_neg hcap, if_neg hg, hstep]]
          exact h
        | emit acc' r =>
          rw [show parseLoop o s (row :: rest) acc counter recs
              = parseLoop o s rest acc' 0 (recs ++ [r]) by
            simp only [parseLoop]; rw [if_neg hcap, if_neg hg, hstep]] at h
          rw [show parseLoop o s (row :: (rest ++ extra)) acc counter recs
              = parseLoop o s (rest ++ extra) acc' 0 (recs ++ [r]) by
            simp only [parseLoop]; rw [if_neg hcap, if_neg hg, hstep]]
          exact ih extra acc' 0 (recs ++ [r]) recs' a c h

/-- Same suffix-irrelevance after the end-bound `break` for
`StreamRecords`' loop. -/
theorem streamLoop_stopped_append (o : FilterOptions) (s : Int) {σ : Type}
    (cb : σ → EnemeterRecord → Except String σ) (rows : List Row) :
    ∀ extra acc counter n st st' a c n',
      streamLoop o s cb rows acc counter n st = .ok (st', a, c, n', true) →
      streamLoop o s cb (rows ++ extra) acc counter n st = .ok (st', a, c, n', true) := by
  induction rows with
  | nil =>
    intro extra acc counter n st st' a c n' h
    simp [streamLoop] at h
  | cons row rest ih =>
    intro extra acc counter n st st' a c n' h
    simp only [List.cons_append]
    by_cases hg : counter + 1 < o.SampleRate
    · rw [show streamLoop o s cb (row :: rest) acc counter n st
          = streamLoop o s cb rest acc (counter + 1) n st by
        simp only [streamLoop]; rw [if_pos hg]] at h
      rw [show streamLoop o s cb (row :: (rest ++ extra)) acc counter n st
          = streamLoop o s cb (rest ++ extra) acc (counter + 1) n st by
        simp only [streamLoop]; rw [if_pos hg]]
      exact ih extra acc (counter + 1) n st st' a c n' h
    · by_cases hcap : 0 < o.MaxRecords ∧ o.MaxRecords ≤ n
      · rw [show streamLoop o s cb (row :: rest) acc counter n st
            = .ok (st, acc, 0, n, false) by
          simp only [streamLoop]; rw [if_neg hg, if_pos hcap]] at h
        simp at h
      · cases hstep : stepRow o s acc row with
        | fail e₀ =>
          rw [show streamLoop o s cb (row :: rest) acc counter n st = .error e₀ by
            simp only [streamLoop]; rw [if_neg hg, if_neg hcap, hstep]] at h
          exact absurd h (by simp)
        | skip acc' =>
          rw [show streamLoop o s cb (row :: rest) acc counter n st
              = streamLoop o s cb rest acc' 0 n st by
            simp only [streamLoop]; rw [if_neg hg, if_neg hcap, hstep]] at h
          rw [show streamLoop o s cb (row :: (rest ++ extra)) acc counter n st
              = streamLoop o s cb (rest ++ extra) acc' 0 n st by
            simp only [streamLoop]; rw [if_neg hg, if_neg hcap, hstep]]
          exact ih extra acc' 0 n st st' a c n' h
        | stop acc' =>
          rw [show streamLoop o s cb (row :: rest) acc counter n st
              = .ok (st, acc', 0, n, true) by
            simp only [streamLoop]; rw [if_neg hg, if_neg hcap, hstep]] at h
          rw [show streamLoop o s cb (row :: (rest ++ extra)) acc counter n st
              = .ok (st, acc', 0, n, true) by
            simp only [streamLoop]; rw [if_neg hg, if_neg hcap, hstep]]
          exact h
        | emit acc' r =>
          rw [show streamLoop o s cb (row :: rest) acc counter n st
              = (match cb st r with
                 | .error e => .error ("callback error: " ++ e)
                 | .ok st₂ => streamLoop o s cb rest acc' 0 (n + 1) st₂) by
            simp only [streamLoop]; rw [if_neg hg, if_neg hcap, hstep]] at h
          rw [show streamLoop o s cb (row :: (rest ++ extra)) acc counter n st
              = (match cb st r with
                 | .error e => .error ("callback error: " ++ e)
                 | .ok st₂ => streamLoop o s cb (rest ++ extra) acc' 0 (n + 1) st₂) by
            simp only [streamLoop]; rw [if_neg hg, if_neg hcap, hstep]]
          cases hcb : cb st r with
          | error e₀ => rw [hcb] at h; exact absurd h (by simp)
          | ok st₂ =>
            rw [hcb] at h
            exact ih extra acc' 0 (n + 1) st₂ st' a c n' h

/-- If the shared body can never emit, `Parse`'s loop never appends a
record. -/
theorem parseLoop_no_emit (o : FilterOptions) (s : Int)
    (hne : ∀ (row : Row) (acc acc' : Int) (r : EnemeterRecord),
      stepRow o s acc row ≠ .emit acc' r) (rows : List Row) :
    ∀ acc counter recs recs' a c b,
      parseLoop o s rows acc counter recs = .ok (recs', a, c, b) → recs' = recs := by
  induction rows with
  | nil =>
    intro acc counter recs recs' a c b h
    simp only [parseLoop, Except.ok.injEq, Prod.mk.injEq] at h
    exact h.1.symm
  | cons row rest ih =>
    intro acc counter recs recs' a c b h
    by_cases hcap : 0 < o.MaxRecords ∧ o.MaxRecords ≤ (recs.length : Int)
    · rw [parseLoop_capped _ _ _ _ _ _ hcap.1 hcap.2] at h
      simp only [Except.ok.injEq, Prod.mk.injEq] at h
      exact h.1.symm
    · by_cases hg : counter + 1 < o.SampleRate
      · rw [show parseLoop o s (row :: rest) acc counter recs
            = parseLoop o s rest acc (counter + 1) recs by
          simp only [parseLoop]; rw [if_neg hcap, if_pos hg]] at h
        exact ih acc (counter + 1) recs recs' a c b h
      · cases hstep : stepRow o s acc row with
        | fail e₀ =>
          rw [show parseLoop o s (row :: rest) acc counter recs = .error e₀ by
            simp only [parseLoop]; rw [if_neg hcap, if_neg hg, hstep]] at h
          exact absurd h (by simp)
        | skip acc' =>
          rw [show parseLoop o s (row :: rest) acc counter recs
              = parseLoop o s rest acc' 0 recs by
            simp only [parseLoop]; rw [if_neg hcap, if_neg hg, hstep]] at h
          exact ih acc' 0 recs recs' a c b h
        | stop acc' =>
          rw [show parseLoop o s (row :: rest) acc counter recs = .ok (recs, acc', 0, true) by
            simp only [parseLoop]; rw [if_neg hcap, if_neg hg, hstep]] at h
          simp only [Except.ok.injEq, Prod.mk.injEq] at h
          exact h.1.symm
        | emit acc' r => exact absurd hstep (hne row acc acc' r)

/-- With an end bound strictly before the start bound no record can pass
both window checks, so a successful scan emits nothing at all. -/
theorem Parse_nil_of_end_lt_start (o : FilterOptions) (s e : Int)
    (hs : o.StartTime = some s) (he : o.EndTime = some e) (hlt : e < s)
    (rows : List Row) (recs : List EnemeterRecord)
    (h : Parse o rows = .ok recs) : recs = [] := by
  have hne : ∀ (row : Row) (acc acc' : Int) (r : EnemeterRecord),
      stepRow o s acc row ≠ .emit acc' r := by
    intro row acc acc' r hc
    obtain ⟨hw1, hw2⟩ := stepRow_emit_window hc
    rw [he] at hw2
    simp [afterEnd] at hw2
    omega
  simp only [Parse, hs] at h
  cases hpl : parseLoop o s rows 0 0 [] with
  | error e₀ => rw [hpl] at h; simp [Except.map] at h
  | ok q =>
    obtain ⟨recs₀, a, c, b⟩ := q
    rw [hpl] at h
    simp only [Except.map, Except.ok.injEq] at h
    rw [← h]
    exact parseLoop_no_emit o s hne rows 0 0 [] recs₀ a c b hpl

/-- C4 (amended): a decoded, gate-passing row whose derived timestamp is
strictly after the configured end and not strictly before the configured
start triggers the `break`; once either loop has ended via that `break`,
appending any further rows changes nothing (no subsequent row is read,
decoded or emitted).  In the remaining corner — a derived timestamp after
the end bound but before the start (possible only when end < start) — the
code `continue`s instead of breaking, but then no record is ever emitted
at all. -/
theorem end_bound_break_terminates_scan (o : FilterOptions) (s e : Int) :
    (∀ (row : Row) (acc td v cu tm : Int), decodeRow row = .ok (td, v, cu, tm) →
        o.EndTime = some e → ¬ s + (acc + td) < s → s + (acc + td) > e →
        stepRow o s acc row = .stop (acc + td)) ∧
    (∀ (rows extra : List Row) (acc counter : Int) (recs recs' : List EnemeterRecord)
        (a c : Int),
        parseLoop o s rows acc counter recs = .ok (recs', a, c, true) →
        parseLoop o s (rows ++ extra) acc counter recs = .ok (recs', a, c, true)) ∧
    (∀ {σ : Type} (cb : σ → EnemeterRecord → Except String σ) (rows extra : List Row)
        (acc counter n : Int) (st st' : σ) (a c n' : Int),
        streamLoop o s cb rows acc counter n st = .ok (st', a, c, n', true) →
        streamLoop o s cb (rows ++ extra) acc counter n st = .ok (st', a, c, n', true)) ∧
    (∀ (rows : List Row) (recs : List EnemeterRecord),
        o.StartTime = some s → o.EndTime = some e → e < s →
        Parse o rows = .ok recs → recs = []) :=
  ⟨fun row acc td v cu tm hdec he h1 h2 =>
      stepRow_stop_of_after_end o s e row acc td v cu tm hdec he h1 h2,
   fun rows extra acc counter recs recs' a c h =>
      parseLoop_stopped_append o s rows extra acc counter recs recs' a c h,
   fun cb rows extra acc counter n st st' a c n' h =>
      streamLoop_stopped_append o s cb rows extra acc counter n st st' a c n' h,
   fun rows recs hs he hlt h => Parse_nil_of_end_lt_start o s e hs he hlt rows recs h⟩

/-- Witness for C4 (amended) on concrete data: with start 0 and end 5, the
row with delta 10 triggers the break and appending a malformed row changes
nothing; with start 1000 and end 500 a successful scan emits nothing. -/
theorem end_bound_break_terminates_scan_witness :
    stepRow ⟨some 0, some 5, 1, 0, none, none, none⟩ 0 0 ["10", "0", "0", "0"]
        = .stop 10 ∧
    parseLoop ⟨some 0, some 5, 1, 0, none, none, none⟩ 0
        ([["10", "0", "0", "0"]] ++ [["x", "0", "0", "0"]]) 0 0 []
      = .ok ([], 10, 0, true) ∧
    streamLoop ⟨some 0, some 5, 1, 0, none, none, none⟩ 0
        (fun (l : List EnemeterRecord) r => Except.ok (l ++ [r]))
        ([["10", "0", "0", "0"]] ++ [["x", "0", "0", "0"]]) 0 0 0 []
      = .ok ([], 10, 0, 0, true) ∧
    ([] : List EnemeterRecord) = [] := by
  obtain ⟨h1, h2, h3, h4⟩ := end_bound_break_terminates_scan
    ⟨some 0, some 5, 1, 0, none, none, none⟩ 0 5
  refine ⟨h1 ["10", "0", "0", "0"] 0 10 0 0 0 rfl rfl (by norm_num) (by norm_num), ?_, ?_, ?_⟩
  · exact h2 [["10", "0", "0", "0"]] [["x", "0", "0", "0"]] 0 0 [] [] 10 0 rfl
  · exact h3 (fun (l : List EnemeterRecord) r => Except.ok (l ++ [r]))
      [["10", "0", "0", "0"]] [["x", "0", "0", "0"]] 0 0 0 [] [] 10 0 0 rfl
  · exact end_bound_break_terminates_scan
      ⟨some 1000, some 500, 1, 0, none, none, none⟩ 1000 500
      |>.2.2.2 [["-100", "0", "0", "0"]] [] rfl rfl (by norm_num) rfl

/-- C4 counterexample: the first row decodes with derived timestamp
1000 + (0 + (-100)) = 900, strictly after the configured end 500, yet the
scan does not terminate there: the code `continue`s at the before-start
check (900 < 1000) and goes on to decode the second row, failing on it —
whereas termination at the first row would have returned an empty success. -/
theorem decoded_row_after_end_does_not_always_break :
    decodeRow ["-100", "0", "0", "0"] = .ok (-100, 0, 0, 0) ∧
    ((1000 : Int) + (0 + (-100)) > 500) ∧
    Parse ⟨some 1000, some 500, 1, 0, none, none, none⟩
        [["-100", "0", "0", "0"], ["x", "0", "0", "0"]]
      = .error "failed to parse time delta" := ⟨rfl, by norm_num, rfl⟩


/-! ## Field characterization of the aggregator fold -/

theorem processTemp_totalJoules (mt : metricsTracker) (x : ℚ) :
    (processTemp mt x).totalJoules = mt.totalJoules := by
  unfold processTemp; dsimp only []; split_ifs <;> rfl

theorem processTemp_totalDurationMs (mt : metricsTracker) (x : ℚ) :
    (processTemp mt x).totalDurationMs = mt.totalDurationMs := by
  unfold processTemp; dsimp only []; split_ifs <;> rfl

theorem processTemp_totalDischargeTime (mt : metricsTracker) (x : ℚ) :
    (processTemp mt x).totalDischargeTime = mt.totalDischargeTime := by
  unfold processTemp; dsimp only []; split_ifs <;> rfl

theorem processTemp_totalChargeTime (mt : metricsTracker) (x : ℚ) :
    (processTemp mt x).totalChargeTime = mt.totalChargeTime := by
  unfold processTemp; dsimp only []; split_ifs <;> rfl

theorem processTemp_prevRecord (mt : metricsTracker) (x : ℚ) :
    (processTemp mt x).prevRecord = mt.prevRecord := by
  unfold processTemp; dsimp only []; split_ifs <;> rfl

theorem processTemp_startTime (mt : metricsTracker) (x : ℚ) :
    (processTemp mt x).startTime = mt.startTime := by
  unfold processTemp; dsimp only []; split_ifs <;> rfl

theorem processTemp_firstTimestamp (mt : metricsTracker) (x : ℚ) :
    (processTemp mt x).firstTimestamp = mt.firstTimestamp := by
  unfold processTemp; dsimp only []; split_ifs <;> rfl

theorem processTemp_dataPoints (mt : metricsTracker) (x : ℚ) :
    (processTemp mt x).dataPoints = mt.dataPoints := by
  unfold processTemp; dsimp only []; split_ifs <;> rfl

theorem processVolt_totalJoules (mt : metricsTracker) (x : ℚ) :
    (processVolt mt x).totalJoules = mt.totalJoules := by
  unfold processVolt; dsimp only []; split_ifs <;> rfl

theorem processVolt_totalDurationMs (mt : metricsTracker) (x : ℚ) :
    (processVolt mt x).totalDurationMs = mt.totalDurationMs := by
  unfold processVolt; dsimp only []; split_ifs <;> rfl

theorem processVolt_totalDischargeTime (mt : metricsTracker) (x : ℚ) :
    (processVolt mt x).totalDischargeTime = mt.totalDischargeTime := by
  unfold processVolt; dsimp only []; split_ifs <;> rfl

theorem processVolt_totalChargeTime (mt : metricsTracker) (x : ℚ) :
    (processVolt mt x).totalChargeTime = mt.totalChargeTime := by
  unfold processVolt; dsimp only []; split_ifs <;> rfl

theorem processVolt_prevRecord (mt : metricsTracker) (x : ℚ) :
    (processVolt mt x).prevRecord = mt.prevRecord := by
  unfold processVolt; dsimp only []; split_ifs <;> rfl

theorem processVolt_startTime (mt : metricsTracker) (x : ℚ) :
    (processVolt mt x).startTime = mt.startTime := by
  unfold processVolt; dsimp only []; split_ifs <;> rfl

theorem processVolt_firstTimestamp (mt : metricsTracker) (x : ℚ) :
    (processVolt mt x).firstTimestamp = mt.firstTimestamp := by
  unfold processVolt; dsimp only []; split_ifs <;> rfl

theorem processVolt_dataPoints (mt : metricsTracker) (x : ℚ) :
    (processVolt mt x).dataPoints = mt.dataPoints := by
  unfold processVolt; dsimp only []; split_ifs <;> rfl

theorem processCurrent_totalJoules (mt : metricsTracker) (x : ℚ) :
    (processCurrent mt x).totalJoules = mt.totalJoules := by
  unfold processCurrent; dsimp only []; split_ifs <;> rfl

theorem processCurrent_totalDurationMs (mt : metricsTracker) (x : ℚ) :
    (processCurrent mt x).totalDurationMs = mt.totalDurationMs := by
  unfold processCurrent; dsimp only []; split_ifs <;> rfl

theorem processCurrent_totalDischargeTime (mt : metricsTracker) (x : ℚ) :
    (processCurrent mt x).totalDischargeTime = mt.totalDischargeTime := by
  unfold processCurrent; dsimp only []; split_ifs <;> rfl

theorem processCurrent_totalChargeTime (mt : metricsTracker) (x : ℚ) :
    (processCurrent mt x).totalChargeTime = mt.totalChargeTime := by
  unfold processCurrent; dsimp only []; split_ifs <;> rfl

theorem processCurrent_prevRecord (mt : metricsTracker) (x : ℚ) :
    (processCurrent mt x).prevRecord = mt.prevRecord := by
  unfold processCurrent; dsimp only []; split_ifs <;> rfl

theorem processCurrent_startTime (mt : metricsTracker) (x : ℚ) :
    (processCurrent mt x).startTime = mt.startTime := by
  unfold processCurrent; dsimp only []; split_ifs <;> rfl

theorem processCurrent_firstTimestamp (mt : metricsTracker) (x : ℚ) :
    (processCurrent mt x).firstTimestamp = mt.firstTimestamp := by
  unfold processCurrent; dsimp only []; split_ifs <;> rfl

theorem processCurrent_dataPoints (mt : metricsTracker) (x : ℚ) :
    (processCurrent mt x).dataPoints = mt.dataPoints := by
  unfold processCurrent; dsimp only []; split_ifs <;> rfl

theorem integrateRecord_prevRecord (t : metricsTracker) (record : EnemeterRecord)
    (ip amps : ℚ) : (integrateRecord t record ip amps).prevRecord = t.prevRecord := by
  unfold integrateRecord
  cases hp : t.prevRecord with
  | none => exact hp
  | some p => dsimp only []; split_ifs <;> rfl

theorem integrateRecord_dataPoints (t : metricsTracker) (record : EnemeterRecord)
    (ip amps : ℚ) : (integrateRecord t record ip amps).dataPoints = t.dataPoints := by
  unfold integrateRecord
  cases hp : t.prevRecord with
  | none => rfl
  | some p => dsimp only []; split_ifs <;> rfl

theorem integrateRecord_startTime (t : metricsTracker) (record : EnemeterRecord)
    (ip amps : ℚ) : (integrateRecord t record ip amps).startTime = t.startTime := by
  unfold integrateRecord
  cases hp : t.prevRecord with
  | none => rfl
  | some p => dsimp only []; split_ifs <;> rfl

theorem integrateRecord_firstTimestamp (t : metricsTracker) (record : EnemeterRecord)
    (ip amps : ℚ) : (integrateRecord t record ip amps).firstTimestamp = t.firstTimestamp := by
  unfold integrateRecord
  cases hp : t.prevRecord with
  | none => rfl
  | some p => dsimp only []; split_ifs <;> rfl

theorem integrateRecord_totalJoules (t : metricsTracker) (record : EnemeterRecord)
    (ip amps : ℚ) :
    (integrateRecord t record ip amps).totalJoules
      = match t.prevRecord with
        | none => t.totalJoules
        | some _ => t.totalJoules + ip * ((record.TimeDeltaMs : ℚ) / 1000) := by
  unfold integrateRecord
  cases hp : t.prevRecord with
  | none => rfl
  | some p => dsimp only []; split_ifs <;> rfl

theorem integrateRecord_totalDurationMs (t : metricsTracker) (record : EnemeterRecord)
    (ip amps : ℚ) :
    (integrateRecord t record ip amps).totalDurationMs
      = match t.prevRecord with
        | none => t.totalDurationMs
        | some _ => t.totalDurationMs + record.TimeDeltaMs := by
  unfold integrateRecord
  cases hp : t.prevRecord with
  | none => rfl
  | some p => dsimp only []; split_ifs <;> rfl

theorem integrateRecord_totalDischargeTime (t : metricsTracker) (record : EnemeterRecord)
    (ip amps : ℚ) :
    (integrateRecord t record ip amps).totalDischargeTime
      = match t.prevRecord with
        | none => t.totalDischargeTime
        | some _ =>
          if amps < 0 then t.totalDischargeTime + (record.TimeDeltaMs : ℚ) / 1000
          else t.totalDischargeTime := by
  unfold integrateRecord
  cases hp : t.prevRecord with
  | none => rfl
  | some p => dsimp only []; split_ifs <;> rfl

theorem integrateRecord_totalChargeTime (t : metricsTracker) (record : EnemeterRecord)
    (ip amps : ℚ) :
    (integrateRecord t record ip amps).totalChargeTime
      = match t.prevRecord with
        | none => t.totalChargeTime
        | some _ =>
          if amps < 0 then t.totalChargeTime
          else t.totalChargeTime + (record.TimeDeltaMs : ℚ) / 1000 := by
  unfold integrateRecord
  cases hp : t.prevRecord with
  | none => rfl
  | some p => dsimp only []; split_ifs <;> rfl

/-- `processRecord` always records the arriving record as the new previous
record. -/
theorem processRecord_prevRecord (mt : metricsTracker) (r : EnemeterRecord) :
    (processRecord mt r).prevRecord = some r := rfl

/-- `processRecord` always counts the arriving record. -/
theorem processRecord_dataPoints (mt : metricsTracker) (r : EnemeterRecord) :
    (processRecord mt r).dataPoints = mt.dataPoints + 1 := by
  unfold processRecord
  simp only [integrateRecord_dataPoints, processCurrent_dataPoints, processVolt_dataPoints,
    processTemp_dataPoints, apply_ite metricsTracker.dataPoints, ite_self]

/-- The stream start timestamp is set by the first record only. -/
theorem processRecord_startTime (mt : metricsTracker) (r : EnemeterRecord) :
    (processRecord mt r).startTime
      = if mt.firstTimestamp then r.Timestamp else mt.startTime := by
  unfold processRecord
  simp only [integrateRecord_startTime, processCurrent_startTime, processVolt_startTime,
    processTemp_startTime, apply_ite metricsTracker.startTime, ite_self]

/-- Energy accrues only when a previous record exists, and then by the
record's instantaneous power times its own delta over 1000. -/
theorem processRecord_totalJoules (mt : metricsTracker) (r : EnemeterRecord) :
    (processRecord mt r).totalJoules
      = match mt.prevRecord with
        | none => mt.totalJoules
        | some _ => mt.totalJoules + instantPowerOf r * ((r.TimeDeltaMs : ℚ) / 1000) := by
  unfold processRecord instantPowerOf
  simp only [integrateRecord_totalJoules, processCurrent_totalJoules, processVolt_totalJoules,
    processTemp_totalJoules, processCurrent_prevRecord, processVolt_prevRecord,
    processTemp_prevRecord, apply_ite metricsTracker.totalJoules,
    apply_ite metricsTracker.prevRecord, ite_self]

/-- The integrated duration advances only when a previous record exists,
and then by the record's own delta. -/
theorem processRecord_totalDurationMs (mt : metricsTracker) (r : EnemeterRecord) :
    (processRecord mt r).totalDurationMs
      = match mt.prevRecord with
        | none => mt.totalDurationMs
        | some _ => mt.totalDurationMs + r.TimeDeltaMs := by
  unfold processRecord
  simp only [integrateRecord_totalDurationMs, processCurrent_totalDurationMs,
    processVolt_totalDurationMs, processTemp_totalDurationMs, processCurrent_prevRecord,
    processVolt_prevRecord, processTemp_prevRecord, apply_ite metricsTracker.totalDurationMs,
    apply_ite metricsTracker.prevRecord, ite_self]

/-- Discharge time accrues exactly for integrated records with negative
current. -/
theorem processRecord_totalDischargeTime (mt : metricsTracker) (r : EnemeterRecord) :
    (processRecord mt r).totalDischargeTime
      = match mt.prevRecord with
        | none => mt.totalDischargeTime
        | some _ =>
          if (r.CurrentNanoA : ℚ) / 1000000000 < 0 then
            mt.totalDischargeTime + (r.TimeDeltaMs : ℚ) / 1000
          else mt.totalDischargeTime := by
  unfold processRecord
  simp only [integrateRecord_totalDischargeTime, processCurrent_totalDischargeTime,
    processVolt_totalDischargeTime, processTemp_totalDischargeTime, processCurrent_prevRecord,
    processVolt_prevRecord, processTemp_prevRecord,
    apply_ite metricsTracker.totalDischargeTime, apply_ite metricsTracker.prevRecord, ite_self]

/-- Charge time accrues exactly for integrated records with nonnegative
current. -/
theorem processRecord_totalChargeTime (mt : metricsTracker) (r : EnemeterRecord) :
    (processRecord mt r).totalChargeTime
      = match mt.prevRecord with
        | none => mt.totalChargeTime
        | some _ =>
          if (r.CurrentNanoA : ℚ) / 1000000000 < 0 then mt.totalChargeTime
          else mt.totalChargeTime + (r.TimeDeltaMs : ℚ) / 1000 := by
  unfold processRecord
  simp only [integrateRecord_totalChargeTime, processCurrent_totalChargeTime,
    processVolt_totalChargeTime, processTemp_totalChargeTime, processCurrent_prevRecord,
    processVolt_prevRecord, processTemp_prevRecord,
    apply_ite metricsTracker.totalChargeTime, apply_ite metricsTracker.prevRecord, ite_self]


/-! ## Finalize projections -/

theorem finalizeCore_DurationSeconds (mt : metricsTracker) :
    (finalizeCore mt).DurationSeconds = (mt.totalDurationMs : ℚ) / 1000 := by
  unfold finalizeCore; dsimp only []; split_ifs <;> rfl

theorem finalizeCore_TotalJoules (mt : metricsTracker) :
    (finalizeCore mt).TotalJoules = mt.totalJoules := by
  unfold finalizeCore; dsimp only []; split_ifs <;> rfl

theorem finalizeCore_AveragePowerWatts (mt : metricsTracker) :
    (finalizeCore mt).AveragePowerWatts
      = if (mt.totalDurationMs : ℚ) / 1000 > 0 then
          mt.totalJoules / ((mt.totalDurationMs : ℚ) / 1000)
        else 0 := by
  unfold finalizeCore zeroEnergyMetrics; dsimp only []; split_ifs <;> rfl

theorem finalizeStats_DurationSeconds (mt : metricsTracker) (m : EnergyMetrics) :
    (finalizeStats mt m).DurationSeconds = m.DurationSeconds := by
  unfold finalizeStats; dsimp only []; split_ifs <;> rfl

theorem finalizeStats_TotalJoules (mt : metricsTracker) (m : EnergyMetrics) :
    (finalizeStats mt m).TotalJoules = m.TotalJoules := by
  unfold finalizeStats; dsimp only []; split_ifs <;> rfl

theorem finalizeStats_AveragePowerWatts (mt : metricsTracker) (m : EnergyMetrics) :
    (finalizeStats mt m).AveragePowerWatts = m.AveragePowerWatts := by
  unfold finalizeStats; dsimp only []; split_ifs <;> rfl

theorem finalizeStats_BatteryStats (mt : metricsTracker) (m : EnergyMetrics) :
    (finalizeStats mt m).BatteryStats = m.BatteryStats := by
  unfold finalizeStats; dsimp only []; split_ifs <;> rfl

theorem finalizeBattery_DurationSeconds (mt : metricsTracker) (m : EnergyMetrics) :
    (finalizeBattery mt m).DurationSeconds = m.DurationSeconds := by
  unfold finalizeBattery; dsimp only []; split_ifs <;> rfl

theorem finalizeBattery_TotalJoules (mt : metricsTracker) (m : EnergyMetrics) :
    (finalizeBattery mt m).TotalJoules = m.TotalJoules := by
  unfold finalizeBattery; dsimp only []; split_ifs <;> rfl

theorem finalizeBattery_AveragePowerWatts (mt : metricsTracker) (m : EnergyMetrics) :
    (finalizeBattery mt m).AveragePowerWatts = m.AveragePowerWatts := by
  unfold finalizeBattery; dsimp only []; split_ifs <;> rfl

theorem finalizeBattery_TotalDischargeTime (mt : metricsTracker) (m : EnergyMetrics) :
    (finalizeBattery mt m).BatteryStats.TotalDischargeTime = mt.totalDischargeTime := by
  unfold finalizeBattery; dsimp only []; split_ifs <;> rfl

theorem finalizeBattery_TotalChargeTime (mt : metricsTracker) (m : EnergyMetrics) :
    (finalizeBattery mt m).BatteryStats.TotalChargeTime = mt.totalChargeTime := by
  unfold finalizeBattery; dsimp only []; split_ifs <;> rfl

theorem finalizeSolar_DurationSeconds (mt : metricsTracker) (m : EnergyMetrics) :
    (finalizeSolar mt m).DurationSeconds = m.DurationSeconds := by
  unfold finalizeSolar; dsimp only []; split_ifs <;> rfl

theorem finalizeSolar_TotalJoules (mt : metricsTracker) (m : EnergyMetrics) :
    (finalizeSolar mt m).TotalJoules = m.TotalJoules := by
  unfold finalizeSolar; dsimp only []; split_ifs <;> rfl

theorem finalizeSolar_AveragePowerWatts (mt : metricsTracker) (m : EnergyMetrics) :
    (finalizeSolar mt m).AveragePowerWatts = m.AveragePowerWatts := by
  unfold finalizeSolar; dsimp only []; split_ifs <;> rfl

theorem finalizeSolar_BatteryStats (mt : metricsTracker) (m : EnergyMetrics) :
    (finalizeSolar mt m).BatteryStats = m.BatteryStats := by
  unfold finalizeSolar; dsimp only []; split_ifs <;> rfl

theorem finalizeMetrics_DurationSeconds (mt : metricsTracker) :
    (finalizeMetrics mt).DurationSeconds = (mt.totalDurationMs : ℚ) / 1000 := by
  unfold finalizeMetrics finalizeMetricsSt
  rw [finalizeSolar_DurationSeconds, finalizeBattery_DurationSeconds,
    finalizeStats_DurationSeconds, finalizeCore_DurationSeconds]

theorem finalizeMetrics_TotalJoules (mt : metricsTracker) :
    (finalizeMetrics mt).TotalJoules = mt.totalJoules := by
  unfold finalizeMetrics finalizeMetricsSt
  rw [finalizeSolar_TotalJoules, finalizeBattery_TotalJoules,
    finalizeStats_TotalJoules, finalizeCore_TotalJoules]

theorem finalizeMetrics_AveragePowerWatts (mt : metricsTracker) :
    (finalizeMetrics mt).AveragePowerWatts
      = if (mt.totalDurationMs : ℚ) / 1000 > 0 then
          mt.totalJoules / ((mt.totalDurationMs : ℚ) / 1000)
        else 0 := by
  unfold finalizeMetrics finalizeMetricsSt
  rw [finalizeSolar_AveragePowerWatts, finalizeBattery_AveragePowerWatts,
    finalizeStats_AveragePowerWatts, finalizeCore_AveragePowerWatts]

theorem finalizeMetrics_TotalDischargeTime (mt : metricsTracker) :
    (finalizeMetrics mt).BatteryStats.TotalDischargeTime = mt.totalDischargeTime := by
  unfold finalizeMetrics finalizeMetricsSt
  rw [finalizeSolar_BatteryStats, finalizeBattery_TotalDischargeTime]

theorem finalizeMetrics_TotalChargeTime (mt : metricsTracker) :
    (finalizeMetrics mt).BatteryStats.TotalChargeTime = mt.totalChargeTime := by
  unfold finalizeMetrics finalizeMetricsSt
  rw [finalizeSolar_BatteryStats, finalizeBattery_TotalChargeTime]

/-! ## C5, C8, C9 -/

/-- C5: a record folded with no previous record contributes no joules and
no integrated duration, and (on the first record, when `firstTimestamp`
is still set) records its timestamp as the stream start; every record
folded with a previous record present contributes incremental joules equal
to its instantaneous power times its own `TimeDeltaMs / 1000`, and its own
delta to the integrated duration. -/
theorem first_record_sets_start_subsequent_integrate
    (mt : metricsTracker) (r : EnemeterRecord) :
    (mt.prevRecord = none →
      (processRecord mt r).totalJoules = mt.totalJoules ∧
      (processRecord mt r).totalDurationMs = mt.totalDurationMs) ∧
    (mt.firstTimestamp = true → (processRecord mt r).startTime = r.Timestamp) ∧
    (∀ p, mt.prevRecord = some p →
      (processRecord mt r).totalJoules
        = mt.totalJoules + instantPowerOf r * ((r.TimeDeltaMs : ℚ) / 1000) ∧
      (processRecord mt r).totalDurationMs = mt.totalDurationMs + r.TimeDeltaMs) := by
  refine ⟨fun h => ?_, fun h => ?_, fun p h => ?_⟩
  · rw [processRecord_totalJoules, processRecord_totalDurationMs, h]
    exact ⟨rfl, rfl⟩
  · rw [processRecord_startTime, h, if_pos rfl]
  · rw [processRecord_totalJoules, processRecord_totalDurationMs, h]
    exact ⟨rfl, rfl⟩

/-- Witness for C5 on the spec's concrete scenario records. -/
theorem first_record_sets_start_subsequent_integrate_witness :
    ((processRecord newMetricsTracker ⟨52051, 4815430, -1275169536, 23192, 52051⟩).totalJoules
        = newMetricsTracker.totalJoules ∧
      (processRecord newMetricsTracker ⟨52051, 4815430, -1275169536, 23192, 52051⟩).totalDurationMs
        = newMetricsTracker.totalDurationMs) ∧
    (processRecord newMetricsTracker ⟨52051, 4815430, -1275169536, 23192, 52051⟩).startTime
      = (52051 : Int) ∧
    ((processRecord (processRecord newMetricsTracker ⟨52051, 4815430, -1275169536, 23192, 52051⟩)
          ⟨47, 4815790, -1275169536, 23192, 52098⟩).totalJoules
        = (processRecord newMetricsTracker
            ⟨52051, 4815430, -1275169536, 23192, 52051⟩).totalJoules
          + instantPowerOf ⟨47, 4815790, -1275169536, 23192, 52098⟩ * ((47 : ℚ) / 1000) ∧
      (processRecord (processRecord newMetricsTracker ⟨52051, 4815430, -1275169536, 23192, 52051⟩)
          ⟨47, 4815790, -1275169536, 23192, 52098⟩).totalDurationMs
        = (processRecord newMetricsTracker
            ⟨52051, 4815430, -1275169536, 23192, 52051⟩).totalDurationMs + 47) := by
  refine ⟨?_, ?_, ?_⟩
  · exact (first_record_sets_start_subsequent_integrate newMetricsTracker
      ⟨52051, 4815430, -1275169536, 23192, 52051⟩).1 rfl
  · exact (first_record_sets_start_subsequent_integrate newMetricsTracker
      ⟨52051, 4815430, -1275169536, 23192, 52051⟩).2.1 rfl
  · exact (first_record_sets_start_subsequent_integrate
      (processRecord newMetricsTracker ⟨52051, 4815430, -1275169536, 23192, 52051⟩)
      ⟨47, 4815790, -1275169536, 23192, 52098⟩).2.2
      ⟨52051, 4815430, -1275169536, 23192, 52051⟩ (processRecord_prevRecord _ _)

/-- C8: `finalizeMetrics` is a pure function of the tracker: the
statement-by-statement transcription assigns no tracker field, so the
state out equals the state in, and finalizing twice in succession yields
identical snapshots. -/
theorem finalize_is_pure_and_idempotent (mt : metricsTracker) :
    (finalizeMetricsSt mt).2 = mt ∧
    (finalizeMetricsSt ((finalizeMetricsSt mt).2)).1 = (finalizeMetricsSt mt).1 :=
  ⟨rfl, rfl⟩

/-- Folding preserves the invariant that discharge time plus charge time
equals the integrated duration in seconds. -/
theorem foldl_battery_time_inv (l : List EnemeterRecord) :
    ∀ mt : metricsTracker,
      mt.totalDischargeTime + mt.totalChargeTime = (mt.totalDurationMs : ℚ) / 1000 →
      (l.foldl processRecord mt).totalDischargeTime
          + (l.foldl processRecord mt).totalChargeTime
        = ((l.foldl processRecord mt).totalDurationMs : ℚ) / 1000 := by
  induction l with
  | nil => intro mt h; exact h
  | cons r rest ih =>
    intro mt h
    rw [List.foldl_cons]
    apply ih
    rw [processRecord_totalDischargeTime, processRecord_totalChargeTime,
      processRecord_totalDurationMs]
    cases hp : mt.prevRecord with
    | none => exact h
    | some p =>
      have hcast : ((mt.totalDurationMs + r.TimeDeltaMs : Int) : ℚ)
          = (mt.totalDurationMs : ℚ) + (r.TimeDeltaMs : ℚ) := by push_cast; ring
      dsimp only []
      by_cases hc : (r.CurrentNanoA : ℚ) / 1000000000 < 0
      · simp only [if_pos hc]
        rw [hcast, add_div, ← h]; ring
      · simp only [if_neg hc]
        rw [hcast, add_div, ← h]; ring


/-- Folding from a tracker that already has a previous record adds every
record's delta to the integrated duration. -/
theorem foldl_totalDurationMs (l : List EnemeterRecord) :
    ∀ mt : metricsTracker, mt.prevRecord.isSome = true →
      (l.foldl processRecord mt).totalDurationMs
        = mt.totalDurationMs + (l.map (fun x => x.TimeDeltaMs)).sum := by
  induction l with
  | nil => intro mt _; simp
  | cons r rest ih =>
    intro mt h
    rw [List.foldl_cons, ih (processRecord mt r) (by rw [processRecord_prevRecord]; rfl),
      processRecord_totalDurationMs]
    cases hp : mt.prevRecord with
    | none => rw [hp] at h; simp at h
    | some p =>
      dsimp only []
      simp only [List.map_cons, List.sum_cons]
      ring

/-- C9: each integrated record's duration is added exactly once to the
global duration and exactly once to exactly one battery accumulator —
discharge time when its current is negative, charge time when it is zero
or positive — so discharge time plus charge time equals the finalized
snapshot's `DurationSeconds`. -/
theorem battery_times_split_duration (records : List EnemeterRecord) :
    ((CalculateMetrics records).BatteryStats.TotalDischargeTime
        + (CalculateMetrics records).BatteryStats.TotalChargeTime
      = (CalculateMetrics records).DurationSeconds) ∧
    (∀ (mt : metricsTracker) (r p : EnemeterRecord), mt.prevRecord = some p →
      r.CurrentNanoA < 0 →
      (processRecord mt r).totalDischargeTime
          = mt.totalDischargeTime + (r.TimeDeltaMs : ℚ) / 1000 ∧
        (processRecord mt r).totalChargeTime = mt.totalChargeTime ∧
        (processRecord mt r).totalDurationMs = mt.totalDurationMs + r.TimeDeltaMs) ∧
    (∀ (mt : metricsTracker) (r p : EnemeterRecord), mt.prevRecord = some p →
      0 ≤ r.CurrentNanoA →
      (processRecord mt r).totalChargeTime
          = mt.totalChargeTime + (r.TimeDeltaMs : ℚ) / 1000 ∧
        (processRecord mt r).totalDischargeTime = mt.totalDischargeTime ∧
        (processRecord mt r).totalDurationMs = mt.totalDurationMs + r.TimeDeltaMs) := by
  refine ⟨?_, ?_, ?_⟩
  · cases records with
    | nil => norm_num [CalculateMetrics, zeroEnergyMetrics]
    | cons r rest =>
      have hC : CalculateMetrics (r :: rest)
          = finalizeMetrics ((r :: rest).foldl processRecord newMetricsTracker) := by
        simp [CalculateMetrics]
      rw [hC, finalizeMetrics_TotalDischargeTime, finalizeMetrics_TotalChargeTime,
        finalizeMetrics_DurationSeconds]
      exact foldl_battery_time_inv (r :: rest) newMetricsTracker (by norm_num [newMetricsTracker])
  · intro mt r p hp hc
    have hq : (r.CurrentNanoA : ℚ) / 1000000000 < 0 :=
      div_neg_of_neg_of_pos (by exact_mod_cast hc) (by norm_num)
    rw [processRecord_totalDischargeTime, processRecord_totalChargeTime,
      processRecord_totalDurationMs, hp]
    dsimp only []
    rw [if_pos hq, if_pos hq]
    exact ⟨rfl, rfl, rfl⟩
  · intro mt r p hp hc
    have hq : ¬ (r.CurrentNanoA : ℚ) / 1000000000 < 0 :=
      not_lt.mpr (div_nonneg (by exact_mod_cast hc) (by norm_num))
    rw [processRecord_totalDischargeTime, processRecord_totalChargeTime,
      processRecord_totalDurationMs, hp]
    dsimp only []
    rw [if_neg hq, if_neg hq]
    exact ⟨rfl, rfl, rfl⟩

/-- Witness for C9 on concrete records: one discharging (current −5 nA)
and one charging (current 5 nA) record folded after a first record. -/
theorem battery_times_split_duration_witness :
    ((CalculateMetrics [⟨0, 0, 0, -5, 0⟩, ⟨100, 0, 0, -5, 100⟩]).BatteryStats.TotalDischargeTime
        + (CalculateMetrics
            [⟨0, 0, 0, -5, 0⟩, ⟨100, 0, 0, -5, 100⟩]).BatteryStats.TotalChargeTime
      = (CalculateMetrics [⟨0, 0, 0, -5, 0⟩, ⟨100, 0, 0, -5, 100⟩]).DurationSeconds) ∧
    ((processRecord (processRecord newMetricsTracker ⟨0, 0, 0, 0, 0⟩)
          ⟨100, 0, 0, -5, 100⟩).totalDischargeTime
        = (processRecord newMetricsTracker ⟨0, 0, 0, 0, 0⟩).totalDischargeTime
          + ((100 : Int) : ℚ) / 1000) ∧
    ((processRecord (processRecord newMetricsTracker ⟨0, 0, 0, 0, 0⟩)
          ⟨100, 0, 0, 5, 100⟩).totalChargeTime
        = (processRecord newMetricsTracker ⟨0, 0, 0, 0, 0⟩).totalChargeTime
          + ((100 : Int) : ℚ) / 1000) := by
  refine ⟨(battery_times_split_duration [⟨0, 0, 0, -5, 0⟩, ⟨100, 0, 0, -5, 100⟩]).1, ?_, ?_⟩
  · exact ((battery_times_split_duration []).2.1
      (processRecord newMetricsTracker ⟨0, 0, 0, 0, 0⟩) ⟨100, 0, 0, -5, 100⟩
      ⟨0, 0, 0, 0, 0⟩ (processRecord_prevRecord _ _) (by norm_num)).1
  · exact ((battery_times_split_duration []).2.2
      (processRecord newMetricsTracker ⟨0, 0, 0, 0, 0⟩) ⟨100, 0, 0, 5, 100⟩
      ⟨0, 0, 0, 0, 0⟩ (processRecord_prevRecord _ _) (by norm_num)).1

/-- C6 (amended): the finalized `DurationSeconds` is the cumulative
integrated time-delta sum in milliseconds divided by 1000 (the sum of the
deltas of all records after the first, not a timestamp subtraction), and
`AveragePowerWatts` is `TotalJoules / DurationSeconds` when that duration
is strictly positive and 0 otherwise (in particular 0 when the duration is
0). -/
theorem average_power_is_energy_over_integrated_duration (mt : metricsTracker) :
    ((finalizeMetrics mt).DurationSeconds = (mt.totalDurationMs : ℚ) / 1000) ∧
    ((finalizeMetrics mt).DurationSeconds > 0 →
      (finalizeMetrics mt).AveragePowerWatts
        = (finalizeMetrics mt).TotalJoules / (finalizeMetrics mt).DurationSeconds) ∧
    (¬ (finalizeMetrics mt).DurationSeconds > 0 →
      (finalizeMetrics mt).AveragePowerWatts = 0) ∧
    (∀ (r : EnemeterRecord) (rest : List EnemeterRecord),
      (CalculateMetrics (r :: rest)).DurationSeconds
        = ((rest.map (fun x => x.TimeDeltaMs)).sum : ℚ) / 1000) := by
  refine ⟨finalizeMetrics_DurationSeconds mt, fun h => ?_, fun h => ?_, fun r rest => ?_⟩
  · rw [finalizeMetrics_DurationSeconds] at h
    rw [finalizeMetrics_AveragePowerWatts, finalizeMetrics_TotalJoules,
      finalizeMetrics_DurationSeconds, if_pos h]
  · rw [finalizeMetrics_DurationSeconds] at h
    rw [finalizeMetrics_AveragePowerWatts, if_neg h]
  · have hC : CalculateMetrics (r :: rest)
        = finalizeMetrics ((r :: rest).foldl processRecord newMetricsTracker) := by
      simp [CalculateMetrics]
    have h0 : (processRecord newMetricsTracker r).totalDurationMs = 0 := by
      rw [processRecord_totalDurationMs]; rfl
    rw [hC, finalizeMetrics_DurationSeconds, List.foldl_cons,
      foldl_totalDurationMs rest (processRecord newMetricsTracker r)
        (by rw [processRecord_prevRecord]; rfl),
      h0, zero_add]
    push_cast
    rw [List.map_map]
    rfl

/-- Concrete tracker state used by the C6 witness: 2000 integrated
milliseconds and 4 joules. -/
def c6Tracker : metricsTracker :=
  { newMetricsTracker with totalDurationMs := 2000, totalJoules := 4 }

/-- Witness for C6 (amended): a tracker with 2000 integrated milliseconds
and 4 joules has average power 4 / 2 W; the fresh tracker (duration 0) has
average power 0; and on two concrete records the duration is the second
record's delta over 1000. -/
theorem average_power_is_energy_over_integrated_duration_witness :
    ((finalizeMetrics c6Tracker).AveragePowerWatts
      = (finalizeMetrics c6Tracker).TotalJoules
        / (finalizeMetrics c6Tracker).DurationSeconds) ∧
    (finalizeMetrics newMetricsTracker).AveragePowerWatts = 0 ∧
    (CalculateMetrics [⟨52051, 4815430, -1275169536, 23192, 52051⟩,
        ⟨47, 4815790, -1275169536, 23192, 52098⟩]).DurationSeconds
      = ((([⟨47, 4815790, -1275169536, 23192, 52098⟩] :
            List EnemeterRecord).map (fun x => x.TimeDeltaMs)).sum : ℚ) / 1000 := by
  refine ⟨?_, ?_, ?_⟩
  · apply (average_power_is_energy_over_integrated_duration _).2.1
    rw [finalizeMetrics_DurationSeconds]
    norm_num [c6Tracker, newMetricsTracker]
  · apply (average_power_is_energy_over_integrated_duration _).2.2.1
    rw [finalizeMetrics_DurationSeconds]
    norm_num [newMetricsTracker]
  · exact (average_power_is_energy_over_integrated_duration newMetricsTracker).2.2.2
      ⟨52051, 4815430, -1275169536, 23192, 52051⟩ [⟨47, 4815790, -1275169536, 23192, 52098⟩]

/-- C6 counterexample: two records whose second carries a negative time
delta give DurationSeconds = −1 and TotalJoules = −1; the code leaves
AveragePowerWatts at 0 although TotalJoules / DurationSeconds = 1, so
"AveragePowerWatts equals TotalJoules divided by DurationSeconds (0 only
when the duration is 0)" fails: the guard is duration > 0, not
duration ≠ 0. -/
theorem average_power_zero_for_negative_duration :
    (CalculateMetrics [⟨0, 0, 1000000, 1000000000, 0⟩,
        ⟨-1000, 0, 1000000, 1000000000, -1000⟩]).AveragePowerWatts = 0 ∧
    (CalculateMetrics [⟨0, 0, 1000000, 1000000000, 0⟩,
          ⟨-1000, 0, 1000000, 1000000000, -1000⟩]).TotalJoules
        / (CalculateMetrics [⟨0, 0, 1000000, 1000000000, 0⟩,
            ⟨-1000, 0, 1000000, 1000000000, -1000⟩]).DurationSeconds
      = 1 := by
  have hC : CalculateMetrics [⟨0, 0, 1000000, 1000000000, 0⟩,
        ⟨-1000, 0, 1000000, 1000000000, -1000⟩]
      = finalizeMetrics ([⟨0, 0, 1000000, 1000000000, 0⟩,
          ⟨-1000, 0, 1000000, 1000000000, -1000⟩].foldl processRecord newMetricsTracker) := by
    simp [CalculateMetrics]
  have hdur : ([(⟨0, 0, 1000000, 1000000000, 0⟩ : EnemeterRecord),
        ⟨-1000, 0, 1000000, 1000000000, -1000⟩].foldl processRecord
        newMetricsTracker).totalDurationMs = -1000 := by
    show (processRecord (processRecord newMetricsTracker ⟨0, 0, 1000000, 1000000000, 0⟩)
        ⟨-1000, 0, 1000000, 1000000000, -1000⟩).totalDurationMs = -1000
    rw [processRecord_totalDurationMs, processRecord_prevRecord]
    dsimp only []
    rw [processRecord_totalDurationMs]
    norm_num [newMetricsTracker]
  have htj : ([(⟨0, 0, 1000000, 1000000000, 0⟩ : EnemeterRecord),
        ⟨-1000, 0, 1000000, 1000000000, -1000⟩].foldl processRecord
        newMetricsTracker).totalJoules = -1 := by
    show (processRecord (processRecord newMetricsTracker ⟨0, 0, 1000000, 1000000000, 0⟩)
        ⟨-1000, 0, 1000000, 1000000000, -1000⟩).totalJoules = -1
    rw [processRecord_totalJoules, processRecord_prevRecord]
    dsimp only []
    rw [processRecord_totalJoules]
    norm_num [newMetricsTracker, instantPowerOf]
  rw [hC, finalizeMetrics_AveragePowerWatts, finalizeMetrics_TotalJoules,
    finalizeMetrics_DurationSeconds, hdur, htj]
  norm_num

/-- C7: an input that yields zero accepted records produces Go's zero-value
snapshot (DataPoints 0 and every numeric field — per-category stats
included — at 0, with no sentinel exposed), and no error is raised; this
holds for the batch path on the empty record list and for the streaming
path whenever `Parse` accepts nothing. -/
theorem zero_records_zero_snapshot :
    CalculateMetrics [] = zeroEnergyMetrics ∧
    ∀ (o : FilterOptions) (rows : List Row),
      Parse o rows = .ok [] → StreamCalculateMetrics o rows = .ok zeroEnergyMetrics := by
  refine ⟨rfl, fun o rows h => ?_⟩
  have h2 := (stream_of_parse o rows).1 [] h
  rw [h2]
  rfl

/-- Witness for C7 on the empty input with a trivial configuration. -/
theorem zero_records_zero_snapshot_witness :
    CalculateMetrics [] = zeroEnergyMetrics ∧
    StreamCalculateMetrics ⟨some 0, none, 1, 0, none, none, none⟩ []
      = .ok zeroEnergyMetrics :=
  ⟨zero_records_zero_snapshot.1,
   zero_records_zero_snapshot.2 ⟨some 0, none, 1, 0, none, none, none⟩ [] rfl⟩

end Enemeter
